import Mathlib

set_option maxHeartbeats 1000000

/-!
Verification of the study-flashcard application's core:
the Learn-mode knowledge state machine (learn-view.tsx),
the localStorage fallback store (local-db.ts) and the
database-backed store (db.ts over neon-db.ts).

Strings are Lean `String`s; JS string methods are modelled on the
underlying character list.  Timestamps (`Date.now()`) are `Nat`
milliseconds and are passed explicitly, as are generated ids
(`nanoid()`).  JS `Map` objects are modelled as functions
`String → Option α` (a JS map holds at most one value per key);
`localStorage` is modelled as an association list so that key
iteration (`Object.keys`) can be expressed.
-/

namespace Spec2Proof

/-! ### JS string primitives -/

/-- The whitespace characters removed by `String.prototype.trim`. -/
def jsIsSpace (c : Char) : Bool :=
  c == ' ' || c == '\t' || c == '\n' || c == '\r' || c == '\x0b' || c == '\x0c'

/-- Model of `s.toLowerCase()`. -/
def jsToLowerCase (s : String) : String :=
  String.mk (s.toList.map Char.toLower)

/-- Model of `s.trim()`: strip leading and trailing whitespace. -/
def jsTrim (s : String) : String :=
  String.mk (((s.toList.dropWhile jsIsSpace).reverse.dropWhile jsIsSpace).reverse)

/-- Model of `s.substring(0, n)`. -/
def jsSubstringTo (s : String) (n : Nat) : String :=
  String.mk (s.toList.take n)

/-- Model of `s.includes(sub)`: substring containment. -/
def jsIncludes (s sub : String) : Bool :=
  decide (sub.toList <:+: s.toList)

/-! ### Learn mode (learn-view.tsx) -/

/-- A Learn-mode item: a study item enriched with session-local
spaced-repetition metadata. -/
structure LearnItem where
  id : String
  term : String
  definition : String
  knowledgeLevel : Nat
  nextReview : Nat
  lastReviewed : Option Nat
deriving Repr, DecidableEq

/-- The review-delay table of `updateItemKnowledge` (milliseconds),
indexed by knowledge level. -/
def intervals : List Nat :=
  [1000 * 60,                -- level 0: 1 minute
   1000 * 60 * 60,           -- level 1: 1 hour
   1000 * 60 * 60 * 24,      -- level 2: 1 day
   1000 * 60 * 60 * 24 * 3,  -- level 3: 3 days
   1000 * 60 * 60 * 24 * 7]  -- level 4: 1 week

/-- Model of `updateItemKnowledge` from learn-view.tsx.  On a correct answer the
level is `Math.min(4, level + 1)`; otherwise `Math.max(0, level - 1)`,
which on `Nat` is truncated subtraction.  `intervals[newLevel]` is
modelled with `getD` (in the code the index is always in range). -/
def updateItemKnowledge (item : LearnItem) (isCorrect : Bool) (now : Nat) : LearnItem :=
  let newLevel := if isCorrect then min 4 (item.knowledgeLevel + 1) else item.knowledgeLevel - 1
  { item with
    knowledgeLevel := newLevel
    nextReview := now + intervals.getD newLevel 0
    lastReviewed := some now }

/-- The delay table as stated in the design document, §4.3. -/
def specDelay : Nat → Nat
  | 0 => 60 * 1000
  | 1 => 60 * 60 * 1000
  | 2 => 24 * 60 * 60 * 1000
  | 3 => 3 * 24 * 60 * 60 * 1000
  | _ => 7 * 24 * 60 * 60 * 1000

/-- Model of `checkAnswer` from learn-view.tsx: the free-text answer is graded by
`userInput.toLowerCase().trim().includes(definition.toLowerCase().trim().substring(0, 20))`. -/
def checkAnswer (userInput def_ : String) : Bool :=
  jsIncludes (jsTrim (jsToLowerCase userInput)) (jsSubstringTo (jsTrim (jsToLowerCase def_)) 20)

/-- A step of the next-item-selection effect: either an index into the
item list is presented, or the session is complete. -/
inductive LearnStep where
  | present (index : Nat)
  | complete
deriving Repr, DecidableEq

/-- The due-item list of the selection effect in learn-view.tsx:
`items.filter(item => item.nextReview <= now).sort((a, b) => a.nextReview - b.nextReview)`. -/
def dueSorted (items : List LearnItem) (now : Nat) : List LearnItem :=
  (items.filter (fun i => decide (i.nextReview ≤ now))).mergeSort
    (fun a b => decide (a.nextReview ≤ b.nextReview))

/-- The next-item-selection effect in learn-view.tsx: if some item is
due, present `items.findIndex(item => item.id === dueItems[0].id)`;
otherwise mark the session complete. -/
def selectNextLearnItem (items : List LearnItem) (now : Nat) : LearnStep :=
  match dueSorted items now with
  | [] => .complete
  | d :: _ => .present (items.findIdx (fun i => i.id == d.id))

/-! ### Theorems about Learn mode -/

/-- Claim C1. For every Learn-mode item with a legal knowledge level and
every self-graded attempt at time `now`: on success the level becomes
`min (level + 1) 4`, on failure `level - 1` (floored at 0 by `Nat`
subtraction); `nextReview` is `now` plus the spec's delay for the new
level (1 min / 1 h / 1 d / 3 d / 7 d for levels 0–4); and
`lastReviewed` becomes `now`. -/
theorem learn_updateItemKnowledge_spec (item : LearnItem) (isCorrect : Bool) (now : Nat)
    (h : item.knowledgeLevel ≤ 4) :
    (updateItemKnowledge item isCorrect now).knowledgeLevel =
      (if isCorrect then min (item.knowledgeLevel + 1) 4 else item.knowledgeLevel - 1) ∧
    (updateItemKnowledge item isCorrect now).nextReview =
      now + specDelay (updateItemKnowledge item isCorrect now).knowledgeLevel ∧
    (updateItemKnowledge item isCorrect now).lastReviewed = some now := by
  have hl : item.knowledgeLevel = 0 ∨ item.knowledgeLevel = 1 ∨ item.knowledgeLevel = 2 ∨
      item.knowledgeLevel = 3 ∨ item.knowledgeLevel = 4 := by omega
  rcases hl with hl | hl | hl | hl | hl <;>
    cases isCorrect <;>
      simp [updateItemKnowledge, specDelay, intervals, hl, Nat.min_comm]

/-- A concrete Learn-mode item at knowledge level 2, used as a witness input. -/
def sampleLearnItem : LearnItem :=
  { id := "i", term := "t", definition := "d", knowledgeLevel := 2,
    nextReview := 0, lastReviewed := none }

/-- Witness for `learn_updateItemKnowledge_spec` at level 2, success, `now = 5`. -/
theorem learn_updateItemKnowledge_spec_witness :
    sampleLearnItem.knowledgeLevel ≤ 4 ∧
    ((updateItemKnowledge sampleLearnItem true 5).knowledgeLevel =
      (if true then min (sampleLearnItem.knowledgeLevel + 1) 4
       else sampleLearnItem.knowledgeLevel - 1) ∧
    (updateItemKnowledge sampleLearnItem true 5).nextReview =
      5 + specDelay (updateItemKnowledge sampleLearnItem true 5).knowledgeLevel ∧
    (updateItemKnowledge sampleLearnItem true 5).lastReviewed = some 5) :=
  ⟨by decide, learn_updateItemKnowledge_spec sampleLearnItem true 5 (by decide)⟩

/-- Claim C9. In Learn mode's quiz stage a free-text answer is graded
correct iff the lowercased, trimmed user input contains the first 20
characters of the lowercased, trimmed definition as a substring;
consequently typing the exact definition is always graded correct. -/
theorem checkAnswer_substring_grading :
    (∀ (input def_ : String),
      checkAnswer input def_ = true ↔
        (jsTrim (jsToLowerCase def_)).toList.take 20 <:+: (jsTrim (jsToLowerCase input)).toList) ∧
    (∀ def_ : String, checkAnswer def_ def_ = true) := by
  constructor
  · intro input def_
    simp [checkAnswer, jsIncludes, jsSubstringTo]
  · intro def_
    simp only [checkAnswer, jsIncludes, jsSubstringTo, decide_eq_true_eq]
    exact ⟨[], (jsTrim (jsToLowerCase def_)).toList.drop 20, by simp⟩

/-- The comparator used by the selection effect is transitive. -/
theorem dueCmp_trans (a b c : LearnItem)
    (hab : decide (a.nextReview ≤ b.nextReview) = true)
    (hbc : decide (b.nextReview ≤ c.nextReview) = true) :
    decide (a.nextReview ≤ c.nextReview) = true := by
  simp only [decide_eq_true_eq] at *
  omega

/-- The comparator used by the selection effect is total. -/
theorem dueCmp_total (a b : LearnItem) :
    (decide (a.nextReview ≤ b.nextReview) || decide (b.nextReview ≤ a.nextReview)) = true := by
  simp only [Bool.or_eq_true, decide_eq_true_eq]
  omega

/-- Claim C4. At each selection step: if some item is due
(`nextReview ≤ now`), the effect presents an index of an item that is
due and whose `nextReview` is minimal among all due items; if no item
is due, the session is marked complete.  (Items carry distinct ids, as
assigned by `nanoid()`.) -/
theorem learn_selection_earliest_due (items : List LearnItem) (now : Nat)
    (hids : (items.map LearnItem.id).Nodup) :
    ((∃ i ∈ items, i.nextReview ≤ now) →
      ∃ (k : Nat) (hk : k < items.length),
        selectNextLearnItem items now = .present k ∧
        (items.get ⟨k, hk⟩).nextReview ≤ now ∧
        ∀ j ∈ items, j.nextReview ≤ now →
          (items.get ⟨k, hk⟩).nextReview ≤ j.nextReview) ∧
    ((¬ ∃ i ∈ items, i.nextReview ≤ now) →
      selectNextLearnItem items now = .complete) := by
  constructor
  · rintro ⟨i, hi, hile⟩
    have hmem_due : i ∈ items.filter (fun i => decide (i.nextReview ≤ now)) :=
      List.mem_filter.2 ⟨hi, by simpa using hile⟩
    rcases hds : dueSorted items now with _ | ⟨d, rest⟩
    · exfalso
      have : i ∈ dueSorted items now := by
        unfold dueSorted
        exact List.mem_mergeSort.2 hmem_due
      rw [hds] at this
      exact absurd this (List.not_mem_nil i)
    · have hd_due : d ∈ items.filter (fun i => decide (i.nextReview ≤ now)) := by
        have : d ∈ dueSorted items now := by rw [hds]; exact List.mem_cons_self d rest
        unfold dueSorted at this
        exact List.mem_mergeSort.1 this
      have hd_items : d ∈ items := (List.mem_filter.1 hd_due).1
      have hd_le : d.nextReview ≤ now := by
        have := (List.mem_filter.1 hd_due).2
        simpa using this
      have hsorted : (dueSorted items now).Pairwise
          (fun a b => decide (a.nextReview ≤ b.nextReview) = true) := by
        unfold dueSorted
        exact List.sorted_mergeSort dueCmp_trans dueCmp_total _
      rw [hds] at hsorted
      have hmin : ∀ j ∈ items, j.nextReview ≤ now → d.nextReview ≤ j.nextReview := by
        intro j hj hjle
        have hj_due : j ∈ items.filter (fun i => decide (i.nextReview ≤ now)) :=
          List.mem_filter.2 ⟨hj, by simpa using hjle⟩
        have hj_ms : j ∈ dueSorted items now := by
          unfold dueSorted
          exact List.mem_mergeSort.2 hj_due
        rw [hds] at hj_ms
        rcases List.mem_cons.1 hj_ms with rfl | hj_rest
        · exact Nat.le_refl _
        · have := (List.pairwise_cons.1 hsorted).1 j hj_rest
          simpa using this
      have hex : ∃ x ∈ items, (fun i : LearnItem => i.id == d.id) x = true :=
        ⟨d, hd_items, by simp⟩
      have hk : items.findIdx (fun i => i.id == d.id) < items.length :=
        List.findIdx_lt_length_of_exists hex
      refine ⟨items.findIdx (fun i => i.id == d.id), hk, ?_, ?_, ?_⟩
      · unfold selectNextLearnItem
        rw [hds]
      · have hpk : (items.get ⟨items.findIdx (fun i => i.id == d.id), hk⟩).id == d.id := by
          simpa [List.get_eq_getElem] using (List.findIdx_getElem (w := hk))
        have hgm : items.get ⟨items.findIdx (fun i => i.id == d.id), hk⟩ ∈ items :=
          List.get_mem items _ hk
        have heq : items.get ⟨items.findIdx (fun i => i.id == d.id), hk⟩ = d :=
          List.inj_on_of_nodup_map hids hgm hd_items (by simpa using hpk)
        rw [heq]
        exact hd_le
      · intro j hj hjle
        have hpk : (items.get ⟨items.findIdx (fun i => i.id == d.id), hk⟩).id == d.id := by
          simpa [List.get_eq_getElem] using (List.findIdx_getElem (w := hk))
        have hgm : items.get ⟨items.findIdx (fun i => i.id == d.id), hk⟩ ∈ items :=
          List.get_mem items _ hk
        have heq : items.get ⟨items.findIdx (fun i => i.id == d.id), hk⟩ = d :=
          List.inj_on_of_nodup_map hids hgm hd_items (by simpa using hpk)
        rw [heq]
        exact hmin j hj hjle
  · intro hnone
    have hfil : items.filter (fun i => decide (i.nextReview ≤ now)) = [] := by
      rw [List.filter_eq_nil_iff]
      intro a ha
      simp only [decide_eq_true_eq]
      exact fun hle => hnone ⟨a, ha, hle⟩
    unfold selectNextLearnItem dueSorted
    rw [hfil, List.mergeSort_nil]

/-- Two concrete due items with distinct `nextReview` timestamps. -/
def sampleItems : List LearnItem :=
  [{ id := "a", term := "tA", definition := "dA", knowledgeLevel := 0,
     nextReview := 10, lastReviewed := none },
   { id := "b", term := "tB", definition := "dB", knowledgeLevel := 0,
     nextReview := 5, lastReviewed := none }]

/-- Witness for `learn_selection_earliest_due` on two due items. -/
theorem learn_selection_earliest_due_witness :
    (sampleItems.map LearnItem.id).Nodup ∧
    (((∃ i ∈ sampleItems, i.nextReview ≤ 20) →
      ∃ (k : Nat) (hk : k < sampleItems.length),
        selectNextLearnItem sampleItems 20 = .present k ∧
        (sampleItems.get ⟨k, hk⟩).nextReview ≤ 20 ∧
        ∀ j ∈ sampleItems, j.nextReview ≤ 20 →
          (sampleItems.get ⟨k, hk⟩).nextReview ≤ j.nextReview) ∧
    ((¬ ∃ i ∈ sampleItems, i.nextReview ≤ 20) →
      selectNextLearnItem sampleItems 20 = .complete)) :=
  ⟨by decide, learn_selection_earliest_due sampleItems 20 (by decide)⟩

/-! ### Entity model (types.ts) -/

/-- A term/definition pair, optionally with multiple-choice metadata. -/
structure StudyItem where
  id : String
  term : String
  definition : String
  options : Option (List String)
  correctAnswer : Option String
deriving Repr, DecidableEq

/-- A study set: a named, timestamped collection of study items. -/
structure StudySet where
  id : String
  title : String
  description : String
  createdAt : Nat
  updatedAt : Nat
  items : List StudyItem
  sourceType : String
  sourceName : Option String
deriving Repr, DecidableEq

/-- Per-(study set, mode) practice counters. -/
structure UserProgress where
  studySetId : String
  mode : String
  updatedAt : Nat
  itemsStudied : Nat
  correctAnswers : Nat
  incorrectAnswers : Nat
  completedSessions : Nat
deriving Repr, DecidableEq

/-- Creation payload: `Omit<StudySet, 'id' | 'createdAt' | 'updatedAt'>`. -/
structure StudySetInput where
  title : String
  description : String
  items : List StudyItem
  sourceType : String
  sourceName : Option String
deriving Repr, DecidableEq

/-- Progress payload: `Omit<UserProgress, 'updatedAt'>`. -/
structure UserProgressInput where
  studySetId : String
  mode : String
  itemsStudied : Nat
  correctAnswers : Nat
  incorrectAnswers : Nat
  completedSessions : Nat
deriving Repr, DecidableEq

/-- Update payload: `Partial<Omit<StudySet, 'id' | 'createdAt'>>`.
`none` means the field is absent from the payload.  For `sourceName`
(itself optional on `StudySet`) the provided value is again an
`Option`.  A provided `updatedAt` is always overridden by the store. -/
structure StudySetPatch where
  title : Option String
  description : Option String
  updatedAt : Option Nat
  items : Option (List StudyItem)
  sourceType : Option String
  sourceName : Option (Option String)
deriving Repr, DecidableEq

/-- Model of `{ id, createdAt: now, updatedAt: now, ...data }`. -/
def mkStudySet (data : StudySetInput) (id : String) (now : Nat) : StudySet :=
  { id := id
    createdAt := now
    updatedAt := now
    title := data.title
    description := data.description
    items := data.items
    sourceType := data.sourceType
    sourceName := data.sourceName }

/-- Model of `{ ...progress, updatedAt: now }`. -/
def mkUserProgress (p : UserProgressInput) (now : Nat) : UserProgress :=
  { studySetId := p.studySetId
    mode := p.mode
    updatedAt := now
    itemsStudied := p.itemsStudied
    correctAnswers := p.correctAnswers
    incorrectAnswers := p.incorrectAnswers
    completedSessions := p.completedSessions }

/-! ### Key-value primitives

JS `Map` objects are modelled as functions `String → Option α`;
`localStorage` is an association list (its real keys are distinct, but
no lemma below assumes so unless stated). -/

/-- Model of `map.set(k, v)` on a function-backed map. -/
def mapSet (m : String → Option α) (k : String) (v : α) : String → Option α :=
  fun k' => if k' = k then some v else m k'

/-- Model of `map.delete(k)` on a function-backed map. -/
def mapErase (m : String → Option α) (k : String) : String → Option α :=
  fun k' => if k' = k then none else m k'

/-- Model of `getItem`: first binding of a key in an association list. -/
def alookup (m : List (String × α)) (k : String) : Option α :=
  match m with
  | [] => none
  | (k', v) :: rest => if k' = k then some v else alookup rest k

/-- Model of `setItem`: replace the binding of `k`, or append it. -/
def aset (m : List (String × α)) (k : String) (v : α) : List (String × α) :=
  match m with
  | [] => [(k, v)]
  | (k', v') :: rest => if k' = k then (k, v) :: rest else (k', v') :: aset rest k v

/-- Model of `removeItem`: drop the binding of `k`. -/
def aerase (m : List (String × α)) (k : String) : List (String × α) :=
  match m with
  | [] => []
  | (k', v') :: rest => if k' = k then rest else (k', v') :: aerase rest k

/-- Model of `if (!list.includes(x)) list.push(x)`. -/
def pushIfAbsent (l : List String) (x : String) : List String :=
  if x ∈ l then l else l ++ [x]

/-! ### The localStorage fallback client (local-db.ts) -/

namespace LocalDb

/-- The state owned by `createLocalStorageClient`: the in-memory mirror
(`memoryStore`), whether we run in a client context, and the browser's
persistent `localStorage` split by key prefix (`study-set:<id>`,
`study-sets:all`, `progress:<studySetId>:<mode>`). -/
structure LocalState where
  memStudySets : String → Option StudySet
  memStudySetIds : List String
  memProgress : String → Option UserProgress
  isClient : Bool
  lsStudySets : List (String × StudySet)
  lsAllIds : Option (List String)
  lsProgress : List (String × UserProgress)

/-- Model of `progress:<studySetId>:<mode>`. -/
def progressKey (studySetId mode : String) : String :=
  "progress:" ++ studySetId ++ ":" ++ mode

/-- Model of `initializeFromLocalStorage`: on the client, mirror every stored
study set (keyed by the *stored* set's own id) and progress record into
memory, and merge the `study-sets:all` index into the id list. -/
def initializeFromLocalStorage (st : LocalState) : LocalState :=
  if st.isClient then
    let st1 := st.lsStudySets.foldl
      (fun acc p =>
        { acc with
          memStudySets := mapSet acc.memStudySets p.2.id p.2
          memStudySetIds := pushIfAbsent acc.memStudySetIds p.2.id }) st
    let st2 :=
      match st.lsAllIds with
      | some ids => { st1 with memStudySetIds := ids.foldl pushIfAbsent st1.memStudySetIds }
      | none => st1
    { st2 with memProgress := st.lsProgress.foldl (fun m p => mapSet m p.1 p.2) st2.memProgress }
  else st

/-- Model of `createStudySet` (fallback): build the entity, store it in memory,
and on the client mirror it and the id index into localStorage. -/
def createStudySet (st : LocalState) (data : StudySetInput) (id : String) (now : Nat) :
    StudySet × LocalState :=
  let studySet := mkStudySet data id now
  let st1 := { st with
    memStudySets := mapSet st.memStudySets id studySet
    memStudySetIds := pushIfAbsent st.memStudySetIds id }
  let st2 :=
    if st1.isClient then
      { st1 with
        lsStudySets := aset st1.lsStudySets id studySet
        lsAllIds := some st1.memStudySetIds }
    else st1
  (studySet, st2)

/-- Model of `getStudySet` (fallback): initialize, look in memory, then (client
only) fall back to localStorage, caching a hit under the requested id. -/
def getStudySet (st : LocalState) (id : String) : Option StudySet × LocalState :=
  let st := initializeFromLocalStorage st
  match st.memStudySets id with
  | some ss => (some ss, st)
  | none =>
    if st.isClient then
      match alookup st.lsStudySets id with
      | some ss => (some ss, { st with memStudySets := mapSet st.memStudySets id ss })
      | none => (none, st)
    else (none, st)

/-- Model of `{ ...existingSet, ...data, updatedAt: Date.now() }`. -/
def applyPatch (existing : StudySet) (data : StudySetPatch) (now : Nat) : StudySet :=
  { id := existing.id
    createdAt := existing.createdAt
    title := data.title.getD existing.title
    description := data.description.getD existing.description
    items := data.items.getD existing.items
    sourceType := data.sourceType.getD existing.sourceType
    sourceName := data.sourceName.getD existing.sourceName
    updatedAt := now }

/-- Model of `updateStudySet` (fallback): absent target gives `null`; otherwise
spread the patch over the existing entity and store it. -/
def updateStudySet (st : LocalState) (id : String) (data : StudySetPatch) (now : Nat) :
    Option StudySet × LocalState :=
  let st := initializeFromLocalStorage st
  match getStudySet st id with
  | (none, st') => (none, st')
  | (some existing, st') =>
    let updatedSet := applyPatch existing data now
    let st1 := { st' with memStudySets := mapSet st'.memStudySets id updatedSet }
    let st2 :=
      if st1.isClient then { st1 with lsStudySets := aset st1.lsStudySets id updatedSet }
      else st1
    (some updatedSet, st2)

/-- Model of `deleteStudySet` (fallback): `false` when the id is unknown after
initialization; otherwise remove it from memory, the id list, and (on
the client) localStorage together with the id index. -/
def deleteStudySet (st : LocalState) (id : String) : Bool × LocalState :=
  let st := initializeFromLocalStorage st
  match st.memStudySets id with
  | none => (false, st)
  | some _ =>
    let st1 := { st with
      memStudySets := mapErase st.memStudySets id
      memStudySetIds := st.memStudySetIds.filter (fun x => decide (x ≠ id)) }
    let st2 :=
      if st1.isClient then
        { st1 with
          lsStudySets := aerase st1.lsStudySets id
          lsAllIds := some st1.memStudySetIds }
      else st1
    (true, st2)

/-- Model of `saveUserProgress` (fallback): stamp `updatedAt` and overwrite the
record under `progress:<studySetId>:<mode>` in memory and (client)
localStorage. -/
def saveUserProgress (st : LocalState) (p : UserProgressInput) (now : Nat) :
    UserProgress × LocalState :=
  let st := initializeFromLocalStorage st
  let userProgress := mkUserProgress p now
  let key := progressKey p.studySetId p.mode
  let st1 := { st with memProgress := mapSet st.memProgress key userProgress }
  let st2 :=
    if st1.isClient then { st1 with lsProgress := aset st1.lsProgress key userProgress }
    else st1
  (userProgress, st2)

/-- Model of `getUserProgress` (fallback): initialize, look in memory, then
(client only) in localStorage, caching a hit. -/
def getUserProgress (st : LocalState) (studySetId mode : String) :
    Option UserProgress × LocalState :=
  let st := initializeFromLocalStorage st
  let key := progressKey studySetId mode
  match st.memProgress key with
  | some p => (some p, st)
  | none =>
    if st.isClient then
      match alookup st.lsProgress key with
      | some p => (some p, { st with memProgress := mapSet st.memProgress key p })
      | none => (none, st)
    else (none, st)

end LocalDb

/-! ### The database backend (db.ts over neon-db.ts)

The three SQL tables are lists of rows, in insertion order; `SELECT`
without `ORDER BY` reads them in table order, `INSERT` appends,
`UPDATE`/`DELETE` act on all matching rows.  Each `query(...)` call can
fail independently: the state carries a failure schedule `fails`, one
Boolean per upcoming call (entries beyond the list mean success), and a
call consumes its entry — on `true` it throws, modelled by
`Except.error` carrying the store as the throw leaves it, so a failure
after earlier statements of the same operation succeeded leaves their
mutations in place, exactly as in the program.  An empty schedule is a
healthy connection.  The `ON DELETE CASCADE` constraints of the schema
(neon-db.ts) delete a set's `study_items` and `user_progress` rows with
it. -/

namespace Db

/-- A row of `study_sets`. -/
structure StudySetRow where
  id : String
  title : String
  description : String
  created_at : Nat
  updated_at : Nat
  source_type : String
  source_name : Option String
deriving Repr, DecidableEq

/-- A row of `study_items`. -/
structure StudyItemRow where
  id : String
  study_set_id : String
  term : String
  definition : String
  options : Option (List String)
  correct_answer : Option String
deriving Repr, DecidableEq

/-- A row of `user_progress` (the serial surrogate key is omitted; no
code reads it). -/
structure UserProgressRow where
  study_set_id : String
  mode : String
  updated_at : Nat
  items_studied : Nat
  correct_answers : Nat
  incorrect_answers : Nat
  completed_sessions : Nat
deriving Repr, DecidableEq

/-- The relational store plus the connection's failure schedule: one
Boolean per upcoming `query(...)` call (`true` = that call throws);
calls beyond the list succeed, so `[]` is a healthy connection. -/
structure DbState where
  fails : List Bool
  studySets : List StudySetRow
  studyItems : List StudyItemRow
  userProgress : List UserProgressRow
deriving Repr, DecidableEq

/-- One `query(...)` call whose result object is used (`SELECT` rows,
`DELETE` row count, `UPDATE ... RETURNING` rows): the head of the
failure schedule is consumed; on `true` the call throws with the store
as it stands, otherwise `r` is returned alongside the state with the
statement's effect `f` applied. -/
def runQuery (st : DbState) (r : α) (f : DbState → DbState) : Except DbState (α × DbState) :=
  match st.fails with
  | [] => .ok (r, f st)
  | b :: rest =>
    if b then .error { st with fails := rest }
    else .ok (r, f { st with fails := rest })

/-- One `query(...)` call whose result object is ignored (a plain
`INSERT`/`UPDATE`/`DELETE` statement), consuming the schedule the same
way. -/
def runExec (st : DbState) (f : DbState → DbState) : Except DbState DbState :=
  match st.fails with
  | [] => .ok (f st)
  | b :: rest =>
    if b then .error { st with fails := rest }
    else .ok (f { st with fails := rest })

/-- JS `x || d` for `x : string | undefined`: `undefined` and `""` fall
back to `d`. -/
def jsOrElseStr (o : Option String) (d : String) : String :=
  match o with
  | some s => if s = "" then d else s
  | none => d

/-- JS `x || ''` for a plain string (the identity, kept for fidelity). -/
def jsOrEmpty (s : String) : String :=
  if s = "" then "" else s

/-- JS `x || null` for `x : string | undefined`: `""` becomes null. -/
def jsStrOrNull (o : Option String) : Option String :=
  match o with
  | some s => if s = "" then none else some s
  | none => none

/-- JS `x ?? e` for the doubly-optional `sourceName` patch field: only
a present, non-undefined value overrides. -/
def jsCoalesce (o : Option (Option String)) (e : Option String) : Option String :=
  match o with
  | some (some s) => some s
  | _ => e

/-- The `study_items` row inserted for `item` under set `id` (both
`createStudySetDb` and `updateStudySetDb` use this statement).
`item.options || null` is the identity on present arrays (even empty
ones are truthy); `item.correctAnswer || null` nulls empty strings. -/
def itemRow (id : String) (item : StudyItem) : StudyItemRow :=
  { id := item.id
    study_set_id := id
    term := item.term
    definition := item.definition
    options := item.options
    correct_answer := jsStrOrNull item.correctAnswer }

/-- The `StudyItem` read back from a `study_items` row. -/
def itemOfRow (row : StudyItemRow) : StudyItem :=
  { id := row.id
    term := row.term
    definition := row.definition
    options := row.options
    correctAnswer := row.correct_answer }

/-- Model of `createStudySetDb`: insert the `study_sets` row, then each item in
order; any storage error is logged and re-thrown. -/
def createStudySetDb (st : DbState) (data : StudySetInput) (id : String) (now : Nat) :
    Except DbState (StudySet × DbState) := do
  let studySet := mkStudySet data id now
  let st1 ← runExec st (fun s => { s with studySets := s.studySets ++
    [{ id := id
       title := studySet.title
       description := jsOrEmpty studySet.description
       created_at := studySet.createdAt
       updated_at := studySet.updatedAt
       source_type := studySet.sourceType
       source_name := jsStrOrNull studySet.sourceName }] })
  let st2 ← studySet.items.foldlM (fun acc item =>
    runExec acc (fun s => { s with studyItems := s.studyItems ++ [itemRow id item] })) st1
  return (studySet, st2)

/-- The `try` block of `getStudySetDb`: select the set's row, and if it
exists its item rows, and assemble the entity. -/
def getStudySetDbTry (st : DbState) (id : String) :
    Except DbState (Option StudySet × DbState) := do
  let (studySetRows, stA) ← runQuery st (st.studySets.filter (fun r => r.id == id))
    (fun s => s)
  match studySetRows with
  | [] => return (none, stA)
  | studySetRow :: _ =>
    let (itemRows, stB) ← runQuery stA (stA.studyItems.filter (fun r => r.study_set_id == id))
      (fun s => s)
    return (some
      { id := studySetRow.id
        title := studySetRow.title
        description := studySetRow.description
        createdAt := studySetRow.created_at
        updatedAt := studySetRow.updated_at
        sourceType := studySetRow.source_type
        sourceName := studySetRow.source_name
        items := itemRows.map itemOfRow }, stB)

/-- Model of `getStudySetDb`: the catch branch logs and returns `null`,
leaving the store as the failed read left it. -/
def getStudySetDb (st : DbState) (id : String) : Option StudySet × DbState :=
  match getStudySetDbTry st id with
  | .ok v => v
  | .error st1 => (none, st1)

/-- The `SET` clause of `updateStudySetDb`: each provided field falls
back to the existing entity (`||` for title/sourceType, `??` for
description/sourceName), and `updated_at` is refreshed. -/
def updateRowWith (data : StudySetPatch) (existingStudySet : StudySet) (now : Nat)
    (r : StudySetRow) : StudySetRow :=
  { r with
    title := jsOrElseStr data.title existingStudySet.title
    description := data.description.getD existingStudySet.description
    updated_at := now
    source_type := jsOrElseStr data.sourceType existingStudySet.sourceType
    source_name := jsCoalesce data.sourceName existingStudySet.sourceName }

/-- The `try` block of `updateStudySetDb`: read the existing entity via
the (error-swallowing) `getStudySet`, bail out with `null` if absent,
update the `study_sets` row, and if items are provided delete and
reinsert the item collection, then read the entity back.  Each
statement is a separate `query(...)` call, so a later one can throw
after earlier ones already mutated the store. -/
def updateStudySetDbTry (st : DbState) (id : String) (data : StudySetPatch) (now : Nat) :
    Except DbState (Option StudySet × DbState) := do
  let (existing, st0) := getStudySetDb st id
  match existing with
  | none => return (none, st0)
  | some existingStudySet =>
    let st1 ← runExec st0 (fun s => { s with studySets := s.studySets.map (fun r =>
        if r.id == id then updateRowWith data existingStudySet now r
        else r) })
    let st2 ←
      match data.items with
      | none => pure st1
      | some newItems => do
        let stDel ← runExec st1 (fun s => { s with
          studyItems := s.studyItems.filter (fun r => !(r.study_set_id == id)) })
        newItems.foldlM (fun acc item =>
          runExec acc (fun s => { s with studyItems := s.studyItems ++ [itemRow id item] })) stDel
    return getStudySetDb st2 id

/-- Model of `updateStudySetDb`: the catch branch logs and returns
`null` with the store as the throw left it — mutations of the
statements that already succeeded persist. -/
def updateStudySetDb (st : DbState) (id : String) (data : StudySetPatch) (now : Nat) :
    Option StudySet × DbState :=
  match updateStudySetDbTry st id data now with
  | .ok v => v
  | .error st1 => (none, st1)

/-- The `try` block of `deleteStudySetDb`: `DELETE FROM study_sets
WHERE id = $1`, cascading to `study_items` and `user_progress`; the
result is `rowCount > 0`. -/
def deleteStudySetDbTry (st : DbState) (id : String) : Except DbState (Bool × DbState) := do
  let (rowCount, st1) ← runQuery st (st.studySets.filter (fun r => r.id == id)).length
    (fun s => { s with
      studySets := s.studySets.filter (fun r => !(r.id == id))
      studyItems := s.studyItems.filter (fun r => !(r.study_set_id == id))
      userProgress := s.userProgress.filter (fun r => !(r.study_set_id == id)) })
  return (decide (0 < rowCount), st1)

/-- Model of `deleteStudySetDb`: the catch branch logs and returns
`false` with the store as the throw left it. -/
def deleteStudySetDb (st : DbState) (id : String) : Bool × DbState :=
  match deleteStudySetDbTry st id with
  | .ok v => v
  | .error st1 => (false, st1)

/-- The updated-counters image of a `user_progress` row. -/
def progressRowUpdate (p : UserProgressInput) (now : Nat) (r : UserProgressRow) : UserProgressRow :=
  { r with
    updated_at := now
    items_studied := p.itemsStudied
    correct_answers := p.correctAnswers
    incorrect_answers := p.incorrectAnswers
    completed_sessions := p.completedSessions }

/-- The `user_progress` row inserted when no row matched the update. -/
def progressRowInsert (p : UserProgressInput) (now : Nat) : UserProgressRow :=
  { study_set_id := p.studySetId
    mode := p.mode
    updated_at := now
    items_studied := p.itemsStudied
    correct_answers := p.correctAnswers
    incorrect_answers := p.incorrectAnswers
    completed_sessions := p.completedSessions }

/-- The `try` block of `saveUserProgressDb`: `UPDATE ... WHERE
study_set_id = $6 AND mode = $7 RETURNING *` as one call that both
mutates the matching rows and returns them, and if no row was updated,
`INSERT`. -/
def saveUserProgressDbTry (st : DbState) (p : UserProgressInput) (now : Nat) :
    Except DbState (UserProgress × DbState) := do
  let userProgress := mkUserProgress p now
  let (updatedRows, st1) ← runQuery st
    (st.userProgress.filter (fun r => r.study_set_id == p.studySetId && r.mode == p.mode))
    (fun s => { s with userProgress := s.userProgress.map (fun r =>
      if r.study_set_id == p.studySetId && r.mode == p.mode then progressRowUpdate p now r
      else r) })
  let st2 ←
    if updatedRows.length = 0 then
      runExec st1 (fun s => { s with userProgress := s.userProgress ++ [progressRowInsert p now] })
    else pure st1
  return (userProgress, st2)

/-- Model of `saveUserProgressDb`: the catch branch logs and returns the
constructed (unsaved) progress record with the store as the throw left
it. -/
def saveUserProgressDb (st : DbState) (p : UserProgressInput) (now : Nat) :
    UserProgress × DbState :=
  match saveUserProgressDbTry st p now with
  | .ok v => v
  | .error st1 => (mkUserProgress p now, st1)

/-- The `try` block of `getUserProgressDb`. -/
def getUserProgressDbTry (st : DbState) (studySetId mode : String) :
    Except DbState (Option UserProgress × DbState) := do
  let (rows, st1) ← runQuery st
    (st.userProgress.filter (fun r => r.study_set_id == studySetId && r.mode == mode))
    (fun s => s)
  match rows with
  | [] => return (none, st1)
  | row :: _ =>
    return (some
      { studySetId := row.study_set_id
        mode := row.mode
        updatedAt := row.updated_at
        itemsStudied := row.items_studied
        correctAnswers := row.correct_answers
        incorrectAnswers := row.incorrect_answers
        completedSessions := row.completed_sessions }, st1)

/-- Model of `getUserProgressDb`: the catch branch logs and returns
`null`. -/
def getUserProgressDb (st : DbState) (studySetId mode : String) :
    Option UserProgress × DbState :=
  match getUserProgressDbTry st studySetId mode with
  | .ok v => v
  | .error st1 => (none, st1)

end Db

/-! ### Association-list and map lemmas -/

/-- Keys of an association list are distinct (true of real
`localStorage` contents). -/
def NodupKeys (m : List (String × α)) : Prop :=
  (m.map Prod.fst).Nodup

/-- Every stored study set sits under its own id as key (true of every
state this client writes: it always uses key `study-set:<set.id>`). -/
def WfLS (m : List (String × StudySet)) : Prop :=
  ∀ p ∈ m, p.2.id = p.1

theorem alookup_append (a b : List (String × α)) (k : String) :
    alookup (a ++ b) k = (alookup a k).or (alookup b k) := by
  induction a with
  | nil => simp [alookup]
  | cons p rest ih =>
    by_cases h : p.1 = k <;> simp [alookup, h, ih]

theorem alookup_eq_none_iff (m : List (String × α)) (k : String) :
    alookup m k = none ↔ k ∉ m.map Prod.fst := by
  induction m with
  | nil => simp [alookup]
  | cons p rest ih =>
    cases p with
    | mk k0 v0 =>
      by_cases h : k0 = k
      · subst h
        simp [alookup]
      · have h2 : ¬ k = k0 := fun hh => h hh.symm
        simp [alookup, h, ih, h2]

theorem alookup_reverse_of_nodup (m : List (String × α)) (k : String)
    (h : NodupKeys m) : alookup m.reverse k = alookup m k := by
  induction m with
  | nil => rfl
  | cons p rest ih =>
    have h1 : (p.1 :: rest.map Prod.fst).Nodup := by simpa [NodupKeys] using h
    have hh := (List.nodup_cons.1 h1).1
    have ht : NodupKeys rest := (List.nodup_cons.1 h1).2
    rw [List.reverse_cons, alookup_append, ih ht]
    by_cases hk : p.1 = k
    · have hnone : alookup rest k = none := (alookup_eq_none_iff rest k).2 (hk ▸ hh)
      simp [alookup, hk, hnone]
    · simp [alookup, hk, Option.or_none]

theorem alookup_aset_self (m : List (String × α)) (k : String) (v : α) :
    alookup (aset m k v) k = some v := by
  induction m with
  | nil => simp [aset, alookup]
  | cons p rest ih =>
    by_cases h : p.1 = k <;> simp [aset, alookup, h, ih]

theorem alookup_aset_ne (m : List (String × α)) (k k' : String) (v : α) (h : k' ≠ k) :
    alookup (aset m k v) k' = alookup m k' := by
  have h2 : ¬ k = k' := fun hh => h hh.symm
  induction m with
  | nil => simp [aset, alookup, h2]
  | cons p rest ih =>
    cases p with
    | mk k0 v0 =>
      by_cases hp : k0 = k
      · subst hp
        simp [aset, alookup, h2]
      · simp [aset, alookup, hp, ih]

theorem alookup_aerase_ne (m : List (String × α)) (k k' : String) (h : k' ≠ k) :
    alookup (aerase m k) k' = alookup m k' := by
  have h2 : ¬ k = k' := fun hh => h hh.symm
  induction m with
  | nil => rfl
  | cons p rest ih =>
    cases p with
    | mk k0 v0 =>
      by_cases hp : k0 = k
      · subst hp
        simp [aerase, alookup, h2]
      · simp [aerase, alookup, hp, ih]

theorem alookup_reverse_aerase_ne (m : List (String × α)) (k k' : String) (h : k' ≠ k) :
    alookup (aerase m k).reverse k' = alookup m.reverse k' := by
  have h2 : ¬ k = k' := fun hh => h hh.symm
  induction m with
  | nil => rfl
  | cons p rest ih =>
    cases p with
    | mk k0 v0 =>
      by_cases hp : k0 = k
      · subst hp
        simp [aerase, List.reverse_cons, alookup_append, alookup, h2, Option.or_none]
      · simp [aerase, hp, List.reverse_cons, alookup_append, ih]

theorem aset_keys (m : List (String × α)) (k : String) (v : α) :
    (aset m k v).map Prod.fst =
      if k ∈ m.map Prod.fst then m.map Prod.fst else m.map Prod.fst ++ [k] := by
  induction m with
  | nil => simp [aset]
  | cons p rest ih =>
    by_cases h : p.1 = k
    · simp [aset, h]
    · have : ¬ k = p.1 := fun hh => h hh.symm
      simp [aset, h, ih, this]
      by_cases hk : k ∈ rest.map Prod.fst <;> simp [hk, this]

theorem aset_nodupKeys (m : List (String × α)) (k : String) (v : α)
    (h : NodupKeys m) : NodupKeys (aset m k v) := by
  unfold NodupKeys
  rw [aset_keys]
  by_cases hk : k ∈ m.map Prod.fst
  · simpa [hk] using h
  · rw [if_neg hk]
    refine List.Nodup.append h (List.nodup_singleton k) ?_
    intro a ha hb
    simp only [List.mem_singleton] at hb
    subst hb
    exact hk ha

theorem aerase_sublist (m : List (String × α)) (k : String) :
    (aerase m k).Sublist m := by
  induction m with
  | nil => simp [aerase]
  | cons p rest ih =>
    by_cases h : p.1 = k
    · simp [aerase, h]
    · simp [aerase, h]
      exact ih

theorem aerase_nodupKeys (m : List (String × α)) (k : String)
    (h : NodupKeys m) : NodupKeys (aerase m k) := by
  exact List.Nodup.sublist (List.Sublist.map Prod.fst (aerase_sublist m k)) h

theorem aerase_key_not_mem (m : List (String × α)) (k : String)
    (h : NodupKeys m) : k ∉ (aerase m k).map Prod.fst := by
  induction m with
  | nil => simp [aerase]
  | cons p rest ih =>
    have h1 : (p.1 :: rest.map Prod.fst).Nodup := by simpa [NodupKeys] using h
    have hh := (List.nodup_cons.1 h1).1
    have ht : NodupKeys rest := (List.nodup_cons.1 h1).2
    by_cases hp : p.1 = k
    · rw [hp] at hh
      simpa [aerase, hp] using hh
    · have h2 : ¬ k = p.1 := fun hh2 => hp hh2.symm
      simp [aerase, hp, ih ht, h2]

theorem foldl_mapSet_apply (ls : List (String × α)) (m : String → Option α) (k : String) :
    (ls.foldl (fun m q => mapSet m q.1 q.2) m) k = (alookup ls.reverse k).or (m k) := by
  induction ls generalizing m with
  | nil => simp [alookup]
  | cons p rest ih =>
    rw [List.foldl_cons, ih, List.reverse_cons, alookup_append, Option.or_assoc]
    by_cases h : p.1 = k
    · simp [alookup, mapSet, h]
    · have : ¬ k = p.1 := fun hh => h hh.symm
      simp [alookup, mapSet, h, this]

theorem or_or_self (a b : Option α) : a.or (a.or b) = a.or b := by
  cases a <;> simp

theorem alookup_mem (m : List (String × α)) (k : String) (v : α)
    (h : alookup m k = some v) : (k, v) ∈ m := by
  induction m with
  | nil => simp [alookup] at h
  | cons p rest ih =>
    cases p with
    | mk k0 v0 =>
      by_cases hp : k0 = k
      · subst hp
        simp [alookup] at h
        simp [h]
      · simp [alookup, hp] at h
        simp [ih h]

/-! ### Characterizations of the fallback client -/

namespace LocalDb

/-- Rekey a stored study-set list by each stored set's own id — the key
under which `initializeFromLocalStorage` mirrors it into memory. -/
def byIdKey (ls : List (String × StudySet)) : List (String × StudySet) :=
  ls.map (fun p => (p.2.id, p.2))

theorem byIdKey_eq_self : ∀ (ls : List (String × StudySet)), WfLS ls → byIdKey ls = ls
  | [], _ => rfl
  | p :: rest, h => by
    have hp : p.2.id = p.1 := h p (List.mem_cons_self p rest)
    have ht : WfLS rest := fun q hq => h q (List.mem_cons_of_mem p hq)
    have ih := byIdKey_eq_self rest ht
    simp only [byIdKey, List.map_cons] at ih ⊢
    rw [hp, ih]

/-- The study-set loading fold of `initializeFromLocalStorage`, split
into its action on the two fields it touches. -/
theorem ssFold_eq (ls : List (String × StudySet)) (acc : LocalState) :
    (ls.foldl (fun acc p =>
      { acc with
        memStudySets := mapSet acc.memStudySets p.2.id p.2
        memStudySetIds := pushIfAbsent acc.memStudySetIds p.2.id }) acc) =
    { acc with
      memStudySets := (byIdKey ls).foldl (fun m q => mapSet m q.1 q.2) acc.memStudySets
      memStudySetIds := ls.foldl (fun l p => pushIfAbsent l p.2.id) acc.memStudySetIds } := by
  induction ls generalizing acc with
  | nil => rfl
  | cons p rest ih =>
    rw [List.foldl_cons, ih]
    rfl

theorem initialize_isClient (st : LocalState) :
    (initializeFromLocalStorage st).isClient = st.isClient := by
  unfold initializeFromLocalStorage
  by_cases hc : st.isClient
  · rw [if_pos hc, ssFold_eq]
    cases st.lsAllIds <;> rfl
  · rw [if_neg hc]

theorem initialize_lsStudySets (st : LocalState) :
    (initializeFromLocalStorage st).lsStudySets = st.lsStudySets := by
  unfold initializeFromLocalStorage
  by_cases hc : st.isClient
  · rw [if_pos hc, ssFold_eq]
    cases st.lsAllIds <;> rfl
  · rw [if_neg hc]

theorem initialize_lsAllIds (st : LocalState) :
    (initializeFromLocalStorage st).lsAllIds = st.lsAllIds := by
  unfold initializeFromLocalStorage
  by_cases hc : st.isClient
  · rw [if_pos hc, ssFold_eq]
    cases st.lsAllIds <;> rfl
  · rw [if_neg hc]

theorem initialize_lsProgress (st : LocalState) :
    (initializeFromLocalStorage st).lsProgress = st.lsProgress := by
  unfold initializeFromLocalStorage
  by_cases hc : st.isClient
  · rw [if_pos hc, ssFold_eq]
    cases st.lsAllIds <;> rfl
  · rw [if_neg hc]

theorem initialize_memStudySets_apply (st : LocalState) (k : String) :
    (initializeFromLocalStorage st).memStudySets k =
      if st.isClient
      then (alookup (byIdKey st.lsStudySets).reverse k).or (st.memStudySets k)
      else st.memStudySets k := by
  unfold initializeFromLocalStorage
  by_cases hc : st.isClient
  · rw [if_pos hc, if_pos hc, ssFold_eq]
    cases st.lsAllIds <;> simp [foldl_mapSet_apply]
  · rw [if_neg hc, if_neg hc]

theorem initialize_memProgress_apply (st : LocalState) (k : String) :
    (initializeFromLocalStorage st).memProgress k =
      if st.isClient
      then (alookup st.lsProgress.reverse k).or (st.memProgress k)
      else st.memProgress k := by
  unfold initializeFromLocalStorage
  by_cases hc : st.isClient
  · rw [if_pos hc, if_pos hc, ssFold_eq]
    cases st.lsAllIds <;> simp [foldl_mapSet_apply]
  · rw [if_neg hc, if_neg hc]

/-- The value returned by the fallback `getStudySet`: the initialized
memory (localStorage study sets rekeyed by their stored ids over the
memory map), then — on the client — the raw localStorage entry. -/
theorem getStudySet_fst (st : LocalState) (id : String) :
    (getStudySet st id).1 =
      if st.isClient
      then ((alookup (byIdKey st.lsStudySets).reverse id).or (st.memStudySets id)).or
            (alookup st.lsStudySets id)
      else st.memStudySets id := by
  unfold getStudySet
  by_cases hc : st.isClient
  · rw [if_pos hc]
    have hmem := initialize_memStudySets_apply st id
    rw [if_pos hc] at hmem
    cases hx : (initializeFromLocalStorage st).memStudySets id with
    | some ss =>
      rw [hx] at hmem
      simp [hx, ← hmem]
    | none =>
      rw [hx] at hmem
      rw [← hmem]
      simp only [hx, Option.none_or]
      rw [initialize_isClient, initialize_lsStudySets]
      cases hy : alookup st.lsStudySets id <;> simp [hy, hc]
  · rw [if_neg hc]
    have hmem := initialize_memStudySets_apply st id
    rw [if_neg hc] at hmem
    cases hx : (initializeFromLocalStorage st).memStudySets id with
    | some ss =>
      rw [hx] at hmem
      simp [hx, ← hmem]
    | none =>
      rw [hx] at hmem
      rw [← hmem]
      simp only [hx]
      rw [initialize_isClient]
      simp [hc]

/-- The value returned by the fallback `getUserProgress`. -/
theorem getUserProgress_fst (st : LocalState) (sid mode : String) :
    (getUserProgress st sid mode).1 =
      if st.isClient
      then ((alookup st.lsProgress.reverse (progressKey sid mode)).or
              (st.memProgress (progressKey sid mode))).or
            (alookup st.lsProgress (progressKey sid mode))
      else st.memProgress (progressKey sid mode) := by
  unfold getUserProgress
  by_cases hc : st.isClient
  · rw [if_pos hc]
    have hmem := initialize_memProgress_apply st (progressKey sid mode)
    rw [if_pos hc] at hmem
    cases hx : (initializeFromLocalStorage st).memProgress (progressKey sid mode) with
    | some p =>
      rw [hx] at hmem
      simp [hx, ← hmem]
    | none =>
      rw [hx] at hmem
      rw [← hmem]
      simp only [hx, Option.none_or]
      rw [initialize_isClient, initialize_lsProgress]
      cases hy : alookup st.lsProgress (progressKey sid mode) <;> simp [hy, hc]
  · rw [if_neg hc]
    have hmem := initialize_memProgress_apply st (progressKey sid mode)
    rw [if_neg hc] at hmem
    cases hx : (initializeFromLocalStorage st).memProgress (progressKey sid mode) with
    | some p =>
      rw [hx] at hmem
      simp [hx, ← hmem]
    | none =>
      rw [hx] at hmem
      rw [← hmem]
      simp only [hx]
      rw [initialize_isClient]
      simp [hc]

end LocalDb

/-- Every value held by a memory map points at its own id (true of the
memory mirror in every state this client builds). -/
def WfMem (m : String → Option StudySet) : Prop :=
  ∀ k ss, m k = some ss → ss.id = k

theorem mem_aset (m : List (String × α)) (k : String) (v : α) (p : String × α)
    (h : p ∈ aset m k v) : p = (k, v) ∨ p ∈ m := by
  induction m with
  | nil =>
    simp [aset] at h
    simp [h]
  | cons q rest ih =>
    by_cases hq : q.1 = k
    · simp [aset, hq] at h
      rcases h with h | h
      · left
        rw [h]
      · right
        simp [h]
    · simp [aset, hq] at h
      rcases h with h | h
      · right
        simp [h]
      · rcases ih h with h2 | h2
        · left
          exact h2
        · right
          simp [h2]

theorem wfLS_aset (ls : List (String × StudySet)) (k : String) (v : StudySet)
    (hwf : WfLS ls) (hv : v.id = k) : WfLS (aset ls k v) := by
  intro p hp
  rcases mem_aset ls k v p hp with h | h
  · rw [h]
    exact hv
  · exact hwf p h

theorem wfLS_aerase (ls : List (String × StudySet)) (k : String)
    (hwf : WfLS ls) : WfLS (aerase ls k) := by
  intro p hp
  exact hwf p (List.Sublist.mem hp (aerase_sublist ls k))

theorem alookup_reverse_eq_none_iff (m : List (String × α)) (k : String) :
    alookup m.reverse k = none ↔ k ∉ m.map Prod.fst := by
  rw [alookup_eq_none_iff, List.map_reverse, List.mem_reverse]

theorem or_eq_none_parts (a b : Option α) (h : a.or b = none) : a = none ∧ b = none := by
  cases a <;> simp_all

theorem map_eq_self_of_forall (l : List α) (f : α → α) (h : ∀ a ∈ l, f a = a) :
    l.map f = l := by
  induction l with
  | nil => rfl
  | cons a rest ih =>
    rw [List.map_cons, h a (List.mem_cons_self a rest),
      ih (fun b hb => h b (List.mem_cons_of_mem a hb))]

/-- The identifying fields of a study item (its multiple-choice
metadata aside). -/
def itemSig (i : StudyItem) : String × String × String := (i.id, i.term, i.definition)

namespace LocalDb

theorem wfMem_after_init (st : LocalState) (hwfm : WfMem st.memStudySets)
    (_hwf : WfLS st.lsStudySets) : WfMem (initializeFromLocalStorage st).memStudySets := by
  intro k ss h
  rw [initialize_memStudySets_apply] at h
  by_cases hc : st.isClient
  · rw [if_pos hc] at h
    cases hA : alookup (byIdKey st.lsStudySets).reverse k with
    | some v =>
      rw [hA] at h
      simp only [Option.or_some] at h
      have hvs := Option.some.inj h
      have hmem := alookup_mem _ _ _ hA
      rw [List.mem_reverse] at hmem
      rcases List.mem_map.1 hmem with ⟨p, _, hp⟩
      have h1 : p.2.id = k := congrArg Prod.fst hp
      have h2 : p.2 = v := congrArg Prod.snd hp
      rw [← hvs, ← h2]
      exact h1
    | none =>
      rw [hA] at h
      simp only [Option.none_or] at h
      exact hwfm k ss h
  · rw [if_neg hc] at h
    exact hwfm k ss h

/-- A `getStudySet` hit returns a set carrying the requested id, in any
well-formed state. -/
theorem getStudySet_fst_wf (st : LocalState) (id : String) (ss : StudySet)
    (hwfm : WfMem st.memStudySets) (hwf : WfLS st.lsStudySets)
    (h : (getStudySet st id).1 = some ss) : ss.id = id := by
  rw [getStudySet_fst] at h
  by_cases hc : st.isClient
  · rw [if_pos hc] at h
    cases hA : alookup (byIdKey st.lsStudySets).reverse id with
    | some v =>
      rw [hA] at h
      simp only [Option.or_some] at h
      have hvs := Option.some.inj h
      have hmem := alookup_mem _ _ _ hA
      rw [List.mem_reverse] at hmem
      rcases List.mem_map.1 hmem with ⟨p, _, hp⟩
      have h1 : p.2.id = id := congrArg Prod.fst hp
      have h2 : p.2 = v := congrArg Prod.snd hp
      rw [← hvs, ← h2]
      exact h1
    | none =>
      rw [hA] at h
      simp only [Option.none_or] at h
      cases hB : st.memStudySets id with
      | some v =>
        rw [hB] at h
        simp only [Option.or_some] at h
        have hvs := Option.some.inj h
        rw [← hvs]
        exact hwfm id v hB
      | none =>
        rw [hB] at h
        simp only [Option.none_or] at h
        exact hwf (id, ss) (alookup_mem _ _ _ h)
  · rw [if_neg hc] at h
    exact hwfm id ss h

/-- Running `getStudySet` on an already-initialized state returns the
same value as on the original state. -/
theorem getStudySet_fst_after_init (st : LocalState) (id : String) :
    (getStudySet (initializeFromLocalStorage st) id).1 = (getStudySet st id).1 := by
  rw [getStudySet_fst, getStudySet_fst, initialize_isClient, initialize_lsStudySets]
  by_cases hc : st.isClient
  · rw [if_pos hc, if_pos hc, initialize_memStudySets_apply, if_pos hc, or_or_self]
  · rw [if_neg hc, if_neg hc, initialize_memStudySets_apply, if_neg hc]

/-- Running `getUserProgress` on an already-initialized state returns
the same value as on the original state. -/
theorem getUserProgress_fst_after_init (st : LocalState) (sid mode : String) :
    (getUserProgress (initializeFromLocalStorage st) sid mode).1 =
      (getUserProgress st sid mode).1 := by
  rw [getUserProgress_fst, getUserProgress_fst, initialize_isClient, initialize_lsProgress]
  by_cases hc : st.isClient
  · rw [if_pos hc, if_pos hc, initialize_memProgress_apply, if_pos hc, or_or_self]
  · rw [if_neg hc, if_neg hc, initialize_memProgress_apply, if_neg hc]

/-- The full effect of the fallback `createStudySet`. -/
theorem createStudySet_eq (st : LocalState) (data : StudySetInput) (id : String) (now : Nat) :
    createStudySet st data id now =
      (mkStudySet data id now,
       { memStudySets := mapSet st.memStudySets id (mkStudySet data id now)
         memStudySetIds := pushIfAbsent st.memStudySetIds id
         memProgress := st.memProgress
         isClient := st.isClient
         lsStudySets := if st.isClient
           then aset st.lsStudySets id (mkStudySet data id now) else st.lsStudySets
         lsAllIds := if st.isClient
           then some (pushIfAbsent st.memStudySetIds id) else st.lsAllIds
         lsProgress := st.lsProgress }) := by
  unfold createStudySet
  dsimp only
  by_cases hc : st.isClient <;> simp [hc]

/-- Reading a freshly created study set back from the fallback store
yields exactly the created entity. -/
theorem getStudySet_after_create_local (st : LocalState) (data : StudySetInput) (id : String)
    (now : Nat) (hwf : WfLS st.lsStudySets) (hnk : NodupKeys st.lsStudySets) :
    (getStudySet ((createStudySet st data id now).2) id).1 = some (mkStudySet data id now) := by
  rw [createStudySet_eq]
  rw [getStudySet_fst]
  dsimp only
  by_cases hc : st.isClient
  · rw [if_pos hc, if_pos hc]
    have hwf2 : WfLS (aset st.lsStudySets id (mkStudySet data id now)) :=
      wfLS_aset _ _ _ hwf rfl
    have hnk2 : NodupKeys (aset st.lsStudySets id (mkStudySet data id now)) :=
      aset_nodupKeys _ _ _ hnk
    rw [byIdKey_eq_self _ hwf2, alookup_reverse_of_nodup _ _ hnk2, alookup_aset_self]
    rfl
  · rw [if_neg hc]
    simp [mapSet]

/-- Model of `saveUserProgress` returns the freshly stamped record. -/
theorem saveUserProgress_fst (st : LocalState) (p : UserProgressInput) (now : Nat) :
    (saveUserProgress st p now).1 = mkUserProgress p now := rfl

theorem saveUserProgress_snd_isClient (st : LocalState) (p : UserProgressInput) (now : Nat) :
    ((saveUserProgress st p now).2).isClient = st.isClient := by
  unfold saveUserProgress
  dsimp only
  split <;> simp [initialize_isClient]

theorem saveUserProgress_snd_lsProgress (st : LocalState) (p : UserProgressInput) (now : Nat) :
    ((saveUserProgress st p now).2).lsProgress =
      if st.isClient
      then aset st.lsProgress (progressKey p.studySetId p.mode) (mkUserProgress p now)
      else st.lsProgress := by
  unfold saveUserProgress
  dsimp only
  by_cases hc : st.isClient
  · rw [if_pos hc]
    rw [if_pos (by rw [initialize_isClient]; exact hc)]
    dsimp only
    rw [initialize_lsProgress]
  · rw [if_neg hc]
    rw [if_neg (by rw [initialize_isClient]; exact hc)]
    dsimp only
    rw [initialize_lsProgress]

theorem saveUserProgress_snd_memProgress (st : LocalState) (p : UserProgressInput) (now : Nat)
    (k : String) :
    ((saveUserProgress st p now).2).memProgress k =
      if k = progressKey p.studySetId p.mode then some (mkUserProgress p now)
      else (initializeFromLocalStorage st).memProgress k := by
  unfold saveUserProgress
  dsimp only
  split <;> simp [mapSet]

/-- Deleting an id that is absent after initialization: report `false`,
leave the (initialized) state as is. -/
theorem deleteStudySet_absent (st : LocalState) (id : String)
    (h : (initializeFromLocalStorage st).memStudySets id = none) :
    deleteStudySet st id = (false, initializeFromLocalStorage st) := by
  unfold deleteStudySet
  dsimp only
  rw [h]

/-- Deleting a present id: remove it from the memory mirror, the id
index, and (on the client) localStorage together with the id index. -/
theorem deleteStudySet_present (st : LocalState) (id : String) (ss : StudySet)
    (h : (initializeFromLocalStorage st).memStudySets id = some ss) :
    deleteStudySet st id =
      (true,
       { memStudySets := mapErase (initializeFromLocalStorage st).memStudySets id
         memStudySetIds := (initializeFromLocalStorage st).memStudySetIds.filter
           (fun x => decide (x ≠ id))
         memProgress := (initializeFromLocalStorage st).memProgress
         isClient := st.isClient
         lsStudySets := if st.isClient then aerase st.lsStudySets id else st.lsStudySets
         lsAllIds := if st.isClient
           then some ((initializeFromLocalStorage st).memStudySetIds.filter
             (fun x => decide (x ≠ id)))
           else st.lsAllIds
         lsProgress := st.lsProgress }) := by
  unfold deleteStudySet
  dsimp only
  rw [h]
  dsimp only
  by_cases hc : st.isClient
  · rw [if_pos (by rw [initialize_isClient]; exact hc), if_pos hc, if_pos hc]
    simp [initialize_isClient, initialize_lsStudySets, initialize_lsProgress]
  · rw [if_neg (by rw [initialize_isClient]; exact hc), if_neg hc, if_neg hc]
    simp [initialize_isClient, initialize_lsProgress, initialize_lsAllIds,
      initialize_lsStudySets]

/-- Model of `getStudySet` never changes the client flag or the localStorage
contents. -/
theorem getStudySet_snd_fields (st : LocalState) (id : String) :
    ((getStudySet st id).2).isClient = st.isClient ∧
    ((getStudySet st id).2).lsStudySets = st.lsStudySets ∧
    ((getStudySet st id).2).lsProgress = st.lsProgress ∧
    ((getStudySet st id).2).lsAllIds = st.lsAllIds := by
  unfold getStudySet
  dsimp only
  cases hx : (initializeFromLocalStorage st).memStudySets id with
  | some ss =>
    simp [hx, initialize_isClient, initialize_lsStudySets, initialize_lsProgress,
      initialize_lsAllIds]
  | none =>
    by_cases hc : (initializeFromLocalStorage st).isClient
    · have hc2 : st.isClient = true := by rw [← initialize_isClient st]; exact hc
      cases hy : alookup (initializeFromLocalStorage st).lsStudySets id with
      | some ss =>
        simp [hx, hy, hc, hc2, initialize_isClient, initialize_lsStudySets,
          initialize_lsProgress, initialize_lsAllIds]
      | none =>
        simp [hx, hy, hc, hc2, initialize_isClient, initialize_lsStudySets,
          initialize_lsProgress, initialize_lsAllIds]
    · have hc2 : st.isClient = false := by
        rw [← initialize_isClient st]
        exact Bool.not_eq_true _ ▸ hc
      simp [hx, hc, hc2, initialize_isClient, initialize_lsStudySets, initialize_lsProgress,
        initialize_lsAllIds]

/-- Model of `getStudySet` can only grow the memory mirror with the entity it
returns, so well-formedness of memory is preserved. -/
theorem getStudySet_snd_wfMem (st : LocalState) (id : String)
    (hwfm : WfMem st.memStudySets) (hwf : WfLS st.lsStudySets) :
    WfMem ((getStudySet st id).2).memStudySets := by
  have hwfmI := wfMem_after_init st hwfm hwf
  unfold getStudySet
  dsimp only
  cases hx : (initializeFromLocalStorage st).memStudySets id with
  | some ss => simpa [hx] using hwfmI
  | none =>
    by_cases hc : (initializeFromLocalStorage st).isClient
    · cases hy : alookup (initializeFromLocalStorage st).lsStudySets id with
      | some ss =>
        simp only [hx, hc, hy, if_true]
        intro k ss2 hk
        simp only [mapSet] at hk
        by_cases hkk : k = id
        · rw [if_pos hkk] at hk
          have hss := Option.some.inj hk
          rw [initialize_lsStudySets] at hy
          rw [← hss, hkk]
          exact hwf (id, ss) (alookup_mem _ _ _ hy)
        · rw [if_neg hkk] at hk
          exact hwfmI k ss2 hk
      | none => simpa [hx, hc, hy] using hwfmI
    · simpa [hx, hc] using hwfmI

/-- Replacing a study set's items through the fallback `updateStudySet`
and reading the set back yields the new items. -/
theorem local_update_items_roundtrip (st : LocalState) (id : String) (data : StudySetPatch)
    (now : Nat) (L : List StudyItem) (E : StudySet)
    (hwfm : WfMem st.memStudySets) (hwf : WfLS st.lsStudySets) (hnk : NodupKeys st.lsStudySets)
    (hE : (getStudySet st id).1 = some E)
    (hitems : data.items = some L) :
    ∃ Y st2, updateStudySet st id data now = (some Y, st2) ∧
      (getStudySet st2 id).1 = some Y ∧ Y.items = L := by
  have hE' : (getStudySet (initializeFromLocalStorage st) id).1 = some E := by
    rw [getStudySet_fst_after_init]
    exact hE
  have hEid : E.id = id := getStudySet_fst_wf st id E hwfm hwf hE
  have hfields := getStudySet_snd_fields (initializeFromLocalStorage st) id
  have hwfm2 := getStudySet_snd_wfMem (initializeFromLocalStorage st) id
    (wfMem_after_init st hwfm hwf)
    (by rw [initialize_lsStudySets]; exact hwf)
  unfold updateStudySet
  dsimp only
  rcases hg : getStudySet (initializeFromLocalStorage st) id with ⟨v, st2⟩
  have hv : v = some E := by
    have h2 := hE'
    rw [hg] at h2
    exact h2
  subst hv
  rw [hg] at hfields hwfm2
  dsimp only at hfields hwfm2
  obtain ⟨hcl, hls, hlp, hla⟩ := hfields
  rw [initialize_isClient] at hcl
  rw [initialize_lsStudySets] at hls
  rw [initialize_lsProgress] at hlp
  dsimp only
  refine ⟨applyPatch E data now, _, rfl, ?_, ?_⟩
  · rw [getStudySet_fst]
    have hUid : (applyPatch E data now).id = id := hEid
    by_cases hc : st.isClient
    · have hc2 : ({ st2 with
          memStudySets := mapSet st2.memStudySets id (applyPatch E data now) }
            : LocalState).isClient = true := by
        dsimp only
        rw [hcl]
        exact hc
      rw [if_pos hc2, if_pos (by dsimp only; rw [hcl]; exact hc)]
      dsimp only
      rw [hls]
      have hwf2 : WfLS (aset st.lsStudySets id (applyPatch E data now)) :=
        wfLS_aset _ _ _ hwf hUid
      have hnk2 : NodupKeys (aset st.lsStudySets id (applyPatch E data now)) :=
        aset_nodupKeys _ _ _ hnk
      rw [byIdKey_eq_self _ hwf2, alookup_reverse_of_nodup _ _ hnk2, alookup_aset_self]
      rfl
    · have hc3 : ¬(({ st2 with
          memStudySets := mapSet st2.memStudySets id (applyPatch E data now) }
            : LocalState).isClient = true) := by
        dsimp only
        rw [hcl]
        exact hc
      rw [if_neg hc3, if_neg hc3]
      simp [mapSet]
  · rw [applyPatch, hitems]
    rfl

/-- In a well-formed localStorage, a key that misses on direct lookup
also misses after rekeying by stored ids. -/
theorem byIdKey_reverse_none (ls : List (String × StudySet)) (id : String)
    (hwf : WfLS ls) (hls : alookup ls id = none) :
    alookup (byIdKey ls).reverse id = none := by
  rw [alookup_reverse_eq_none_iff]
  intro hmem
  rw [byIdKey, List.map_map] at hmem
  rcases List.mem_map.1 hmem with ⟨q, hqmem, hq⟩
  have hq2 : q.2.id = id := hq
  have hq1 : q.1 = id := by rw [← hwf q hqmem, hq2]
  exact (alookup_eq_none_iff ls id).1 hls (List.mem_map.2 ⟨q, hqmem, hq1⟩)

/-- Model of `getStudySet` misses when the id is in neither the memory mirror
nor localStorage (well-formed states). -/
theorem local_get_absent (st : LocalState) (id : String) (hwf : WfLS st.lsStudySets)
    (hmem : st.memStudySets id = none) (hls : alookup st.lsStudySets id = none) :
    (getStudySet st id).1 = none := by
  rw [getStudySet_fst]
  by_cases hc : st.isClient
  · rw [if_pos hc, byIdKey_reverse_none st.lsStudySets id hwf hls, hmem, hls]
    rfl
  · rw [if_neg hc]
    exact hmem

/-- Model of `updateStudySet` returns an absent value whenever the inner
`getStudySet` misses. -/
theorem updateStudySet_fst_none (st : LocalState) (id : String) (data : StudySetPatch)
    (now : Nat) (h : (getStudySet (initializeFromLocalStorage st) id).1 = none) :
    (updateStudySet st id data now).1 = none := by
  unfold updateStudySet
  dsimp only
  rcases hg : getStudySet (initializeFromLocalStorage st) id with ⟨v, st2⟩
  have hv : v = none := by
    rw [hg] at h
    exact h
  subst hv
  rfl

end LocalDb

/-! ### Characterizations of the database backend -/

namespace Db

/-- At most one `user_progress` row per `(study_set_id, mode)` — the
table's `UNIQUE(study_set_id, mode)` constraint. -/
def UniqueProgressKeys (st : DbState) : Prop :=
  st.userProgress.Pairwise (fun a b => ¬(a.study_set_id = b.study_set_id ∧ a.mode = b.mode))

theorem runQuery_nil {st : DbState} (hf : st.fails = []) (r : α) (f : DbState → DbState) :
    runQuery st r f = .ok (r, f st) := by
  simp [runQuery, hf]

theorem runQuery_headTrue {st : DbState} {rest : List Bool} (hf : st.fails = true :: rest)
    (r : α) (f : DbState → DbState) :
    runQuery st r f = .error { st with fails := rest } := by
  simp [runQuery, hf]

theorem runQuery_headFalse {st : DbState} {rest : List Bool} (hf : st.fails = false :: rest)
    (r : α) (f : DbState → DbState) :
    runQuery st r f = .ok (r, f { st with fails := rest }) := by
  simp [runQuery, hf]

theorem runExec_nil {st : DbState} (hf : st.fails = []) (f : DbState → DbState) :
    runExec st f = .ok (f st) := by
  simp [runExec, hf]

theorem runExec_headTrue {st : DbState} {rest : List Bool} (hf : st.fails = true :: rest)
    (f : DbState → DbState) :
    runExec st f = .error { st with fails := rest } := by
  simp [runExec, hf]

theorem runExec_headFalse {st : DbState} {rest : List Bool} (hf : st.fails = false :: rest)
    (f : DbState → DbState) :
    runExec st f = .ok (f { st with fails := rest }) := by
  simp [runExec, hf]

theorem getStudySetDb_headTrue (st : DbState) (id : String) {rest : List Bool}
    (hf : st.fails = true :: rest) :
    getStudySetDb st id = (none, { st with fails := rest }) := by
  unfold getStudySetDb getStudySetDbTry
  rw [runQuery_headTrue hf]
  simp [Bind.bind, Except.bind]

theorem getStudySetDb_fst_none_of_no_row (st : DbState) (id : String)
    (h : st.studySets.filter (fun r => r.id == id) = []) :
    (getStudySetDb st id).1 = none := by
  unfold getStudySetDb getStudySetDbTry
  rcases hf : st.fails with _ | ⟨b, rest⟩
  · rw [runQuery_nil hf, h]
    simp [Bind.bind, Except.bind, Pure.pure, Except.pure]
  · cases b
    · rw [runQuery_headFalse hf, h]
      simp [Bind.bind, Except.bind, Pure.pure, Except.pure]
    · rw [runQuery_headTrue hf]
      simp [Bind.bind, Except.bind]

theorem getStudySetDb_snd_nil (st : DbState) (id : String) (hf : st.fails = []) :
    (getStudySetDb st id).2 = st := by
  unfold getStudySetDb getStudySetDbTry
  rw [runQuery_nil hf]
  rcases hfil : st.studySets.filter (fun r => r.id == id) with _ | ⟨row, rrest⟩ <;>
    rw [hfil] <;> simp only [Bind.bind, Except.bind]
  · simp [Pure.pure, Except.pure]
  · rw [runQuery_nil hf]
    simp [Pure.pure, Except.pure]

/-- The two reads of `getStudySetDb` never touch the tables: on every
path the result state is the input store with only the failure schedule
advanced. -/
theorem getStudySetDb_snd_tables (st : DbState) (id : String) :
    ∃ fl, (getStudySetDb st id).2 = { st with fails := fl } := by
  obtain ⟨f, ss, si, up⟩ := st
  unfold getStudySetDb getStudySetDbTry
  dsimp only
  rcases f with _ | ⟨b, rest⟩
  · refine ⟨[], ?_⟩
    rw [runQuery_nil rfl]
    rcases hfil : ss.filter (fun r => r.id == id) with _ | ⟨row, rrest⟩ <;>
      rw [hfil] <;> simp only [Bind.bind, Except.bind]
    · simp [Pure.pure, Except.pure]
    · rw [runQuery_nil rfl]
      simp [Pure.pure, Except.pure]
  · cases b
    · rw [runQuery_headFalse rfl]
      rcases hfil : ss.filter (fun r => r.id == id) with _ | ⟨row, rrest⟩ <;>
        rw [hfil] <;> simp only [Bind.bind, Except.bind]
      · exact ⟨rest, by simp [Pure.pure, Except.pure]⟩
      · rcases rest with _ | ⟨b2, rest2⟩
        · refine ⟨[], ?_⟩
          rw [runQuery_nil rfl]
          simp [Pure.pure, Except.pure]
        · cases b2
          · refine ⟨rest2, ?_⟩
            rw [runQuery_headFalse rfl]
            simp [Pure.pure, Except.pure]
          · refine ⟨rest2, ?_⟩
            rw [runQuery_headTrue rfl]
    · rw [runQuery_headTrue rfl]
      exact ⟨rest, by simp [Bind.bind, Except.bind]⟩

/-- The item-insertion loop of the create/update paths, on a healthy
connection: it appends the item rows in order. -/
theorem foldlM_insert_items (items : List StudyItem) (st : DbState) (id : String)
    (hf : st.fails = []) :
    (items.foldlM (fun acc item =>
      runExec acc (fun s => { s with studyItems := s.studyItems ++ [itemRow id item] })) st)
    = .ok { st with studyItems := st.studyItems ++ items.map (itemRow id) } := by
  induction items generalizing st with
  | nil => simp [Pure.pure, Except.pure]
  | cons i rest ih =>
    rw [List.foldlM_cons, runExec_nil hf]
    have hf1 : ({ st with studyItems := st.studyItems ++ [itemRow id i] } : DbState).fails
        = [] := hf
    simp only [Bind.bind, Except.bind, ih _ hf1]
    simp

theorem createStudySetDb_nil (st : DbState) (data : StudySetInput) (id : String) (now : Nat)
    (hf : st.fails = []) :
    createStudySetDb st data id now =
      .ok (mkStudySet data id now,
        { st with
          studySets := st.studySets ++
            [{ id := id
               title := data.title
               description := jsOrEmpty data.description
               created_at := now
               updated_at := now
               source_type := data.sourceType
               source_name := jsStrOrNull data.sourceName }]
          studyItems := st.studyItems ++ data.items.map (itemRow id) }) := by
  unfold createStudySetDb
  dsimp only
  rw [runExec_nil hf]
  simp [foldlM_insert_items, hf, Bind.bind, Except.bind, Pure.pure, Except.pure, mkStudySet]

theorem createStudySetDb_headTrue (st : DbState) (data : StudySetInput) (id : String)
    (now : Nat) {rest : List Bool} (hf : st.fails = true :: rest) :
    createStudySetDb st data id now = .error { st with fails := rest } := by
  unfold createStudySetDb
  dsimp only
  rw [runExec_headTrue hf]
  simp [Bind.bind, Except.bind]

theorem deleteStudySetDb_nil (st : DbState) (id : String) (hf : st.fails = []) :
    deleteStudySetDb st id =
      (decide (0 < (st.studySets.filter (fun r => r.id == id)).length),
       { st with
         studySets := st.studySets.filter (fun r => !(r.id == id))
         studyItems := st.studyItems.filter (fun r => !(r.study_set_id == id))
         userProgress := st.userProgress.filter (fun r => !(r.study_set_id == id)) }) := by
  unfold deleteStudySetDb deleteStudySetDbTry
  rw [runQuery_nil hf]
  simp [Bind.bind, Except.bind, Pure.pure, Except.pure]

theorem deleteStudySetDb_headTrue (st : DbState) (id : String) {rest : List Bool}
    (hf : st.fails = true :: rest) :
    deleteStudySetDb st id = (false, { st with fails := rest }) := by
  unfold deleteStudySetDb deleteStudySetDbTry
  rw [runQuery_headTrue hf]
  simp [Bind.bind, Except.bind]

theorem updateStudySetDb_absent (st : DbState) (id : String) (data : StudySetPatch) (now : Nat)
    (h : st.studySets.filter (fun r => r.id == id) = []) :
    updateStudySetDb st id data now = (none, (getStudySetDb st id).2) := by
  have h1 : (getStudySetDb st id).1 = none := getStudySetDb_fst_none_of_no_row st id h
  have hp : getStudySetDb st id = (none, (getStudySetDb st id).2) := by
    rw [← h1]
  unfold updateStudySetDb updateStudySetDbTry
  rw [hp]
  simp [Pure.pure, Except.pure]

theorem updateStudySetDb_headTrue (st : DbState) (id : String) (data : StudySetPatch)
    (now : Nat) {rest : List Bool} (hf : st.fails = true :: rest) :
    updateStudySetDb st id data now = (none, { st with fails := rest }) := by
  unfold updateStudySetDb updateStudySetDbTry
  rw [getStudySetDb_headTrue st id hf]
  simp [Pure.pure, Except.pure]

theorem jsOrEmpty_eq (s : String) : jsOrEmpty s = s := by
  unfold jsOrEmpty
  by_cases h : s = "" <;> simp [h]

theorem saveUserProgressDb_nil (st : DbState) (p : UserProgressInput) (now : Nat)
    (hf : st.fails = []) :
    saveUserProgressDb st p now =
      (mkUserProgress p now,
       if (st.userProgress.filter
             (fun r => r.study_set_id == p.studySetId && r.mode == p.mode)).length = 0
       then { st with userProgress := (st.userProgress.map (fun r =>
              if r.study_set_id == p.studySetId && r.mode == p.mode
              then progressRowUpdate p now r else r)) ++ [progressRowInsert p now] }
       else { st with userProgress := st.userProgress.map (fun r =>
              if r.study_set_id == p.studySetId && r.mode == p.mode
              then progressRowUpdate p now r else r) }) := by
  unfold saveUserProgressDb saveUserProgressDbTry
  by_cases hlen : (st.userProgress.filter
      (fun r => r.study_set_id == p.studySetId && r.mode == p.mode)).length = 0
  · simp [runQuery, runExec, hf, Bind.bind, Except.bind, hlen, Pure.pure, Except.pure]
  · simp [runQuery, runExec, hf, Bind.bind, Except.bind, hlen, Pure.pure, Except.pure]

theorem saveUserProgressDb_headTrue (st : DbState) (p : UserProgressInput) (now : Nat)
    {rest : List Bool} (hf : st.fails = true :: rest) :
    saveUserProgressDb st p now = (mkUserProgress p now, { st with fails := rest }) := by
  unfold saveUserProgressDb saveUserProgressDbTry
  rw [runQuery_headTrue hf]
  simp [Bind.bind, Except.bind]

theorem saveUserProgressDb_snd_fails (st : DbState) (p : UserProgressInput) (now : Nat)
    (hf : st.fails = []) :
    ((saveUserProgressDb st p now).2).fails = [] := by
  rw [saveUserProgressDb_nil st p now hf]
  dsimp only
  split <;> exact hf

theorem getUserProgressDb_headTrue (st : DbState) (sid mode : String) {rest : List Bool}
    (hf : st.fails = true :: rest) :
    getUserProgressDb st sid mode = (none, { st with fails := rest }) := by
  unfold getUserProgressDb getUserProgressDbTry
  rw [runQuery_headTrue hf]
  simp [Bind.bind, Except.bind]

/-- The entity assembled by `getStudySetDb` from the first matching
`study_sets` row and the matching `study_items` rows, on a healthy
connection (which the reads leave untouched). -/
theorem getStudySetDb_of_filter (st : DbState) (id : String) (row : StudySetRow)
    (rrest : List StudySetRow) (hf : st.fails = [])
    (h : st.studySets.filter (fun r => r.id == id) = row :: rrest) :
    getStudySetDb st id = (some
      { id := row.id
        title := row.title
        description := row.description
        createdAt := row.created_at
        updatedAt := row.updated_at
        sourceType := row.source_type
        sourceName := row.source_name
        items := (st.studyItems.filter (fun r => r.study_set_id == id)).map itemOfRow },
      st) := by
  unfold getStudySetDb getStudySetDbTry
  rw [runQuery_nil hf, h]
  simp only [Bind.bind, Except.bind]
  rw [runQuery_nil hf]
  simp [Pure.pure, Except.pure]

/-- Creating a study set on a fresh id and reading it back yields the
entity with the items in insertion order (empty-string optionals
coerced by `|| null`). -/
theorem getStudySetDb_after_create (st : DbState) (data : StudySetInput) (id : String)
    (now : Nat) (hf : st.fails = [])
    (hfS : st.studySets.filter (fun r => r.id == id) = [])
    (hfI : st.studyItems.filter (fun r => r.study_set_id == id) = []) :
    ∃ st1, createStudySetDb st data id now = .ok (mkStudySet data id now, st1) ∧
      getStudySetDb st1 id = (some
        { id := id
          title := data.title
          description := jsOrEmpty data.description
          createdAt := now
          updatedAt := now
          sourceType := data.sourceType
          sourceName := jsStrOrNull data.sourceName
          items := data.items.map (fun i => itemOfRow (itemRow id i)) }, st1) := by
  have hcr := createStudySetDb_nil st data id now hf
  set st1 : DbState :=
    { st with
      studySets := st.studySets ++
        [{ id := id
           title := data.title
           description := jsOrEmpty data.description
           created_at := now
           updated_at := now
           source_type := data.sourceType
           source_name := jsStrOrNull data.sourceName }]
      studyItems := st.studyItems ++ data.items.map (itemRow id) } with hst1
  refine ⟨st1, hcr, ?_⟩
  have hf1 : st1.fails = [] := hf
  have hset : st1.studySets.filter (fun r => r.id == id) =
      [{ id := id
         title := data.title
         description := jsOrEmpty data.description
         created_at := now
         updated_at := now
         source_type := data.sourceType
         source_name := jsStrOrNull data.sourceName }] := by
    rw [hst1]
    dsimp only
    rw [List.filter_append, hfS]
    simp
  have hitems : st1.studyItems.filter (fun r => r.study_set_id == id) =
      data.items.map (itemRow id) := by
    rw [hst1]
    dsimp only
    rw [List.filter_append, hfI]
    rw [List.filter_map]
    have hcomp : ((fun r : StudyItemRow => r.study_set_id == id) ∘ itemRow id) =
        fun _ => true := by
      funext i
      simp [itemRow]
    rw [hcomp, List.filter_true]
    simp
  rw [getStudySetDb_of_filter st1 id _ [] hf1 hset, hitems]
  simp [List.map_map]

/-- Model of `updateStudySetDb` with a provided item list, on a healthy
connection and an existing target: the `study_sets` row is updated in
place and the item collection replaced, then the entity is read back. -/
theorem updateStudySetDb_items (st : DbState) (id : String) (data : StudySetPatch) (now : Nat)
    (L : List StudyItem) (E : StudySet) (hf : st.fails = [])
    (hE : (getStudySetDb st id).1 = some E) (hitems : data.items = some L) :
    updateStudySetDb st id data now =
      getStudySetDb
        { st with
          studySets := st.studySets.map (fun r =>
            if r.id == id then updateRowWith data E now r else r)
          studyItems := (st.studyItems.filter (fun r => !(r.study_set_id == id))) ++
            L.map (itemRow id) } id := by
  have hE2 : getStudySetDb st id = (some E, st) := by
    have hsnd := getStudySetDb_snd_nil st id hf
    calc getStudySetDb st id
        = ((getStudySetDb st id).1, (getStudySetDb st id).2) := Prod.mk.eta.symm
      _ = (some E, st) := by rw [hE, hsnd]
  unfold updateStudySetDb updateStudySetDbTry
  rw [hE2, hitems]
  simp [runExec_nil, foldlM_insert_items, hf, Bind.bind, Except.bind, Pure.pure, Except.pure]

/-- Replacing a study set's items and reading the set back yields the
new items in insertion order. -/
theorem updateStudySetDb_items_roundtrip (st : DbState) (id : String) (data : StudySetPatch)
    (now : Nat) (L : List StudyItem) (E : StudySet) (hf : st.fails = [])
    (hE : (getStudySetDb st id).1 = some E) (hitems : data.items = some L) :
    ∃ Y st2, updateStudySetDb st id data now = (some Y, st2) ∧
      (getStudySetDb st2 id).1 = some Y ∧
      Y.items = L.map (fun i => itemOfRow (itemRow id i)) := by
  set st2 : DbState :=
    { st with
      studySets := st.studySets.map (fun r =>
        if r.id == id then updateRowWith data E now r else r)
      studyItems := (st.studyItems.filter (fun r => !(r.study_set_id == id))) ++
        L.map (itemRow id) } with hst2
  have hupd := updateStudySetDb_items st id data now L E hf hE hitems
  rcases hfil : st.studySets.filter (fun r => r.id == id) with _ | ⟨row, rest⟩
  · rw [getStudySetDb_fst_none_of_no_row st id hfil] at hE
    exact absurd hE (by simp)
  · have hf2 : st2.fails = [] := hf
    have hrowmem : row ∈ st.studySets.filter (fun r => r.id == id) := by
      rw [hfil]
      exact List.mem_cons_self _ _
    have hrowid : (row.id == id) = true := (List.mem_filter.1 hrowmem).2
    have hcommute : ((fun r : StudySetRow => r.id == id) ∘
        (fun r => if r.id == id then updateRowWith data E now r else r)) =
        (fun r : StudySetRow => r.id == id) := by
      funext r
      by_cases hr : (r.id == id) = true
      · simp [Function.comp, hr, updateRowWith]
      · simp [Function.comp, hr]
    have hfil2 : st2.studySets.filter (fun r => r.id == id) =
        (updateRowWith data E now row) ::
          rest.map (fun r => if r.id == id then updateRowWith data E now r else r) := by
      rw [hst2]
      dsimp only
      rw [List.filter_map, hcommute, hfil]
      simp only [List.map_cons]
      rw [if_pos hrowid]
    have hfili2 : st2.studyItems.filter (fun r => r.study_set_id == id) =
        L.map (itemRow id) := by
      rw [hst2]
      dsimp only
      rw [List.filter_append, List.filter_filter]
      have h1 : st.studyItems.filter
          (fun a => (a.study_set_id == id) && !(a.study_set_id == id)) = [] := by
        simp
      have h2 : (L.map (itemRow id)).filter (fun r => r.study_set_id == id) =
          L.map (itemRow id) := by
        rw [List.filter_map]
        have hcomp : ((fun r : StudyItemRow => r.study_set_id == id) ∘ itemRow id) =
            fun _ => true := by
          funext i
          simp [itemRow]
        rw [hcomp, List.filter_true]
      rw [h1, h2, List.nil_append]
    have hget2 := getStudySetDb_of_filter st2 id _ _ hf2 hfil2
    refine ⟨_, st2, ?_, congrArg Prod.fst hget2, ?_⟩
    · rw [hupd, ← hst2, hget2]
    · dsimp only
      rw [hfili2, List.map_map]
      simp [Function.comp]


theorem progressRowUpdate_eq_insert (p : UserProgressInput) (now : Nat) (r : UserProgressRow)
    (h : (r.study_set_id == p.studySetId && r.mode == p.mode) = true) :
    progressRowUpdate p now r = progressRowInsert p now := by
  simp only [Bool.and_eq_true, beq_iff_eq] at h
  obtain ⟨h1, h2⟩ := h
  simp [progressRowUpdate, progressRowInsert, h1, h2]

/-- The matching rows of the updated table are exactly the images of
the previously matching rows, all equal to the freshly stamped row. -/
theorem mapped_progress_filter (l : List UserProgressRow) (p : UserProgressInput) (now : Nat) :
    (l.map (fun r => if r.study_set_id == p.studySetId && r.mode == p.mode
                     then progressRowUpdate p now r else r)).filter
      (fun r => r.study_set_id == p.studySetId && r.mode == p.mode)
    = (l.filter (fun r => r.study_set_id == p.studySetId && r.mode == p.mode)).map
        (fun _ => progressRowInsert p now) := by
  induction l with
  | nil => rfl
  | cons r rest ih =>
    by_cases hr : (r.study_set_id == p.studySetId && r.mode == p.mode) = true
    · have hkeys : ((progressRowUpdate p now r).study_set_id == p.studySetId &&
          (progressRowUpdate p now r).mode == p.mode) = true := by
        simpa [progressRowUpdate] using hr
      simp only [List.map_cons, List.filter_cons]
      rw [if_pos hr, if_pos hkeys, if_pos hr]
      rw [ih, progressRowUpdate_eq_insert p now r hr]
      simp
    · simp only [List.map_cons, List.filter_cons]
      rw [if_neg hr, if_neg hr, if_neg hr]
      exact ih

/-- The matching rows after `saveUserProgressDb`: one stamped row per
previously matching row, or a single inserted one. -/
theorem save_filter_char (st : DbState) (p : UserProgressInput) (now : Nat)
    (hf : st.fails = []) :
    ((saveUserProgressDb st p now).2).userProgress.filter
        (fun r => r.study_set_id == p.studySetId && r.mode == p.mode)
    = (st.userProgress.filter
        (fun r => r.study_set_id == p.studySetId && r.mode == p.mode)).map
          (fun _ => progressRowInsert p now) ++
      (if (st.userProgress.filter
            (fun r => r.study_set_id == p.studySetId && r.mode == p.mode)).length = 0
       then [progressRowInsert p now] else []) := by
  rw [saveUserProgressDb_nil st p now hf]
  dsimp only
  by_cases hlen : (st.userProgress.filter
      (fun r => r.study_set_id == p.studySetId && r.mode == p.mode)).length = 0
  · rw [if_pos hlen, if_pos hlen, List.filter_append, mapped_progress_filter]
    have hins : ((progressRowInsert p now).study_set_id == p.studySetId &&
        (progressRowInsert p now).mode == p.mode) = true := by
      simp [progressRowInsert]
    simp [hins]
  · rw [if_neg hlen, if_neg hlen, mapped_progress_filter]
    simp

/-- Reading progress straight after saving it yields exactly the saved
counters. -/
theorem getUserProgressDb_after_save (st : DbState) (p : UserProgressInput) (now : Nat)
    (hf : st.fails = []) :
    (getUserProgressDb ((saveUserProgressDb st p now).2) p.studySetId p.mode).1 =
      some (mkUserProgress p now) := by
  have hf2 : ((saveUserProgressDb st p now).2).fails = [] :=
    saveUserProgressDb_snd_fails st p now hf
  have hchar := save_filter_char st p now hf
  unfold getUserProgressDb getUserProgressDbTry
  rw [runQuery_nil hf2, hchar]
  by_cases hlen : (st.userProgress.filter
      (fun r => r.study_set_id == p.studySetId && r.mode == p.mode)).length = 0
  · rw [List.length_eq_zero.1 hlen]
    simp [Bind.bind, Except.bind, Pure.pure, Except.pure, progressRowInsert, mkUserProgress]
  · rcases hfil : st.userProgress.filter
        (fun r => r.study_set_id == p.studySetId && r.mode == p.mode) with _ | ⟨r0, r1⟩
    · exact absurd (by rw [hfil]; rfl) hlen
    · rw [hfil]
      simp [Bind.bind, Except.bind, Pure.pure, Except.pure, progressRowInsert, mkUserProgress]

/-- The keys of a `user_progress` row are untouched by the conditional
update. -/
theorem progressMapKeys (p : UserProgressInput) (now : Nat) (r : UserProgressRow) :
    ((if r.study_set_id == p.studySetId && r.mode == p.mode
      then progressRowUpdate p now r else r).study_set_id = r.study_set_id) ∧
    ((if r.study_set_id == p.studySetId && r.mode == p.mode
      then progressRowUpdate p now r else r).mode = r.mode) := by
  by_cases hr : (r.study_set_id == p.studySetId && r.mode == p.mode) = true <;>
    simp [hr, progressRowUpdate]

/-- Model of `saveUserProgressDb` preserves the unique-key invariant of
`user_progress` on a healthy connection. -/
theorem saveUserProgressDb_unique (st : DbState) (p : UserProgressInput) (now : Nat)
    (hf : st.fails = []) (h : UniqueProgressKeys st) :
    UniqueProgressKeys ((saveUserProgressDb st p now).2) := by
  rw [saveUserProgressDb_nil st p now hf]
  unfold UniqueProgressKeys at h ⊢
  dsimp only
  have hmap : (st.userProgress.map (fun r =>
      if r.study_set_id == p.studySetId && r.mode == p.mode
      then progressRowUpdate p now r else r)).Pairwise
        (fun a b => ¬(a.study_set_id = b.study_set_id ∧ a.mode = b.mode)) := by
    rw [List.pairwise_map]
    refine h.imp ?_
    intro a b hab hcon
    apply hab
    exact ⟨by rw [← (progressMapKeys p now a).1, ← (progressMapKeys p now b).1]; exact hcon.1,
           by rw [← (progressMapKeys p now a).2, ← (progressMapKeys p now b).2]; exact hcon.2⟩
  by_cases hlen : (st.userProgress.filter
      (fun r => r.study_set_id == p.studySetId && r.mode == p.mode)).length = 0
  · rw [if_pos hlen, List.pairwise_append]
    refine ⟨hmap, List.pairwise_singleton _ _, ?_⟩
    intro a ha b hb
    simp only [List.mem_singleton] at hb
    subst hb
    rcases List.mem_map.1 ha with ⟨r, hr, rfl⟩
    have hfl : st.userProgress.filter
        (fun r => r.study_set_id == p.studySetId && r.mode == p.mode) = [] :=
      List.length_eq_zero.1 hlen
    have hnr := List.filter_eq_nil_iff.1 hfl r hr
    simp only [Bool.and_eq_true, beq_iff_eq, not_and] at hnr
    rw [if_neg (by simpa using hnr)]
    intro hcon
    exact hnr (by simpa [progressRowInsert] using hcon.1)
      (by simpa [progressRowInsert] using hcon.2)
  · rw [if_neg hlen]
    exact hmap
end Db

/-! ### Claim theorems for the persistence layer -/

/-- Claim C2. Saving progress twice for the same `(studySetId, mode)` key
leaves exactly the later counters retrievable (upsert, last write
wins), and the store keeps at most one record per key: the fallback's
localStorage mirror keeps distinct keys, and the database table keeps
its unique `(study_set_id, mode)` constraint.  (localStorage and the
constrained table start with distinct keys, as the platforms
guarantee.) -/
theorem progress_upsert_last_write_wins
    (lst : LocalDb.LocalState) (dst : Db.DbState)
    (p1 p2 : UserProgressInput) (now1 now2 : Nat)
    (hsid : p1.studySetId = p2.studySetId) (hmode : p1.mode = p2.mode)
    (hnk : NodupKeys lst.lsProgress)
    (hf : dst.fails = []) (huniq : Db.UniqueProgressKeys dst) :
    (LocalDb.getUserProgress
        ((LocalDb.saveUserProgress ((LocalDb.saveUserProgress lst p1 now1).2) p2 now2).2)
        p2.studySetId p2.mode).1 = some (mkUserProgress p2 now2) ∧
    NodupKeys ((LocalDb.saveUserProgress
        ((LocalDb.saveUserProgress lst p1 now1).2) p2 now2).2).lsProgress ∧
    (Db.getUserProgressDb
        ((Db.saveUserProgressDb ((Db.saveUserProgressDb dst p1 now1).2) p2 now2).2)
        p2.studySetId p2.mode).1 = some (mkUserProgress p2 now2) ∧
    Db.UniqueProgressKeys ((Db.saveUserProgressDb
        ((Db.saveUserProgressDb dst p1 now1).2) p2 now2).2) := by
  set lst1 := (LocalDb.saveUserProgress lst p1 now1).2 with hlst1
  set lst2 := (LocalDb.saveUserProgress lst1 p2 now2).2 with hlst2
  have hcl1 : lst1.isClient = lst.isClient := LocalDb.saveUserProgress_snd_isClient lst p1 now1
  have hls1 : lst1.lsProgress =
      if lst.isClient
      then aset lst.lsProgress (LocalDb.progressKey p1.studySetId p1.mode)
        (mkUserProgress p1 now1)
      else lst.lsProgress := LocalDb.saveUserProgress_snd_lsProgress lst p1 now1
  have hls2 : lst2.lsProgress =
      if lst1.isClient
      then aset lst1.lsProgress (LocalDb.progressKey p2.studySetId p2.mode)
        (mkUserProgress p2 now2)
      else lst1.lsProgress := LocalDb.saveUserProgress_snd_lsProgress lst1 p2 now2
  have hmem2 : lst2.memProgress (LocalDb.progressKey p2.studySetId p2.mode) =
      some (mkUserProgress p2 now2) := by
    have h2 := LocalDb.saveUserProgress_snd_memProgress lst1 p2 now2
      (LocalDb.progressKey p2.studySetId p2.mode)
    rw [if_pos rfl] at h2
    exact h2
  have hcl2 : lst2.isClient = lst.isClient := by
    rw [hlst2, LocalDb.saveUserProgress_snd_isClient, hcl1]
  refine ⟨?_, ?_, ?_, ?_⟩
  · rw [LocalDb.getUserProgress_fst]
    by_cases hc : lst.isClient
    · rw [hcl2, if_pos hc]
      have hnk2 : NodupKeys lst2.lsProgress := by
        rw [hls2, hls1, hcl1]
        rw [if_pos hc, if_pos hc]
        exact aset_nodupKeys _ _ _ (aset_nodupKeys _ _ _ hnk)
      have hlook : alookup lst2.lsProgress (LocalDb.progressKey p2.studySetId p2.mode) =
          some (mkUserProgress p2 now2) := by
        rw [hls2, hcl1, if_pos hc]
        exact alookup_aset_self _ _ _
      rw [alookup_reverse_of_nodup _ _ hnk2, hlook]
      rfl
    · rw [hcl2, if_neg hc]
      exact hmem2
  · rw [hls2, hls1, hcl1]
    by_cases hc : lst.isClient
    · rw [if_pos hc, if_pos hc]
      exact aset_nodupKeys _ _ _ (aset_nodupKeys _ _ _ hnk)
    · rw [if_neg hc, if_neg hc]
      exact hnk
  · exact Db.getUserProgressDb_after_save _ p2 now2
      (Db.saveUserProgressDb_snd_fails dst p1 now1 hf)
  · exact Db.saveUserProgressDb_unique _ p2 now2
      (Db.saveUserProgressDb_snd_fails dst p1 now1 hf)
      (Db.saveUserProgressDb_unique dst p1 now1 hf huniq)

instance (m : List (String × α)) : Decidable (NodupKeys m) :=
  inferInstanceAs (Decidable (m.map Prod.fst).Nodup)

instance (m : List (String × StudySet)) : Decidable (WfLS m) :=
  inferInstanceAs (Decidable (∀ p ∈ m, p.2.id = p.1))

instance (st : Db.DbState) : Decidable (Db.UniqueProgressKeys st) := by
  unfold Db.UniqueProgressKeys
  infer_instance

/-- An empty fallback-store state in a client context. -/
def sampleLocalState : LocalDb.LocalState :=
  { memStudySets := fun _ => none
    memStudySetIds := []
    memProgress := fun _ => none
    isClient := true
    lsStudySets := []
    lsAllIds := none
    lsProgress := [] }

/-- An empty, healthy database state. -/
def sampleDbState : Db.DbState :=
  { fails := [], studySets := [], studyItems := [], userProgress := [] }

/-- A first progress payload for study set `s1` in learn mode. -/
def sampleP1 : UserProgressInput :=
  { studySetId := "s1", mode := "learn", itemsStudied := 3, correctAnswers := 2,
    incorrectAnswers := 1, completedSessions := 1 }

/-- A second payload for the same key with different counters. -/
def sampleP2 : UserProgressInput :=
  { studySetId := "s1", mode := "learn", itemsStudied := 5, correctAnswers := 4,
    incorrectAnswers := 1, completedSessions := 2 }

/-- Witness for `progress_upsert_last_write_wins` on empty stores. -/
theorem progress_upsert_last_write_wins_witness :
    (sampleP1.studySetId = sampleP2.studySetId ∧ sampleP1.mode = sampleP2.mode ∧
     NodupKeys sampleLocalState.lsProgress ∧ sampleDbState.fails = [] ∧
     Db.UniqueProgressKeys sampleDbState) ∧
    ((LocalDb.getUserProgress
        ((LocalDb.saveUserProgress
          ((LocalDb.saveUserProgress sampleLocalState sampleP1 10).2) sampleP2 20).2)
        sampleP2.studySetId sampleP2.mode).1 = some (mkUserProgress sampleP2 20) ∧
    NodupKeys ((LocalDb.saveUserProgress
        ((LocalDb.saveUserProgress sampleLocalState sampleP1 10).2) sampleP2 20).2).lsProgress ∧
    (Db.getUserProgressDb
        ((Db.saveUserProgressDb
          ((Db.saveUserProgressDb sampleDbState sampleP1 10).2) sampleP2 20).2)
        sampleP2.studySetId sampleP2.mode).1 = some (mkUserProgress sampleP2 20) ∧
    Db.UniqueProgressKeys ((Db.saveUserProgressDb
        ((Db.saveUserProgressDb sampleDbState sampleP1 10).2) sampleP2 20).2)) :=
  ⟨⟨rfl, rfl, List.nodup_nil, rfl, List.Pairwise.nil⟩,
   progress_upsert_last_write_wins sampleLocalState sampleDbState sampleP1 sampleP2 10 20
     rfl rfl List.nodup_nil rfl List.Pairwise.nil⟩

/-- Claim C3. `getStudySet` returns the study set with its items in the
order they were inserted at creation or last update, and an
absent-value result (not an error) when the id does not exist — in
both backends.  (Fresh-id hypotheses reflect `nanoid()` uniqueness;
well-formedness hypotheses reflect the localStorage layout the client
itself maintains.) -/
theorem getStudySet_insertion_order_or_absent :
    (∀ (st : Db.DbState) (id : String),
      st.studySets.filter (fun r => r.id == id) = [] →
      (Db.getStudySetDb st id).1 = none) ∧
    (∀ (st : Db.DbState) (data : StudySetInput) (id : String) (now : Nat),
      st.fails = [] →
      st.studySets.filter (fun r => r.id == id) = [] →
      st.studyItems.filter (fun r => r.study_set_id == id) = [] →
      ∃ st1 Y, Db.createStudySetDb st data id now = .ok (mkStudySet data id now, st1) ∧
        (Db.getStudySetDb st1 id).1 = some Y ∧
        Y.items.map itemSig = data.items.map itemSig) ∧
    (∀ (st : Db.DbState) (id : String) (data : StudySetPatch) (now : Nat)
        (L : List StudyItem) (E : StudySet),
      st.fails = [] → (Db.getStudySetDb st id).1 = some E → data.items = some L →
      ∃ Y st2, Db.updateStudySetDb st id data now = (some Y, st2) ∧
        (Db.getStudySetDb st2 id).1 = some Y ∧
        Y.items.map itemSig = L.map itemSig) ∧
    (∀ (st : LocalDb.LocalState) (id : String),
      WfLS st.lsStudySets → st.memStudySets id = none →
      alookup st.lsStudySets id = none →
      (LocalDb.getStudySet st id).1 = none) ∧
    (∀ (st : LocalDb.LocalState) (data : StudySetInput) (id : String) (now : Nat),
      WfLS st.lsStudySets → NodupKeys st.lsStudySets →
      ∃ Y, (LocalDb.getStudySet ((LocalDb.createStudySet st data id now).2) id).1 = some Y ∧
        Y.items = data.items) ∧
    (∀ (st : LocalDb.LocalState) (id : String) (data : StudySetPatch) (now : Nat)
        (L : List StudyItem) (E : StudySet),
      WfMem st.memStudySets → WfLS st.lsStudySets → NodupKeys st.lsStudySets →
      (LocalDb.getStudySet st id).1 = some E → data.items = some L →
      ∃ Y st2, LocalDb.updateStudySet st id data now = (some Y, st2) ∧
        (LocalDb.getStudySet st2 id).1 = some Y ∧ Y.items = L) := by
  refine ⟨?_, ?_, ?_, ?_, ?_, ?_⟩
  · intro st id h
    exact Db.getStudySetDb_fst_none_of_no_row st id h
  · intro st data id now hf hfS hfI
    rcases Db.getStudySetDb_after_create st data id now hf hfS hfI with ⟨st1, hcr, hget⟩
    refine ⟨st1, _, hcr, congrArg Prod.fst hget, ?_⟩
    dsimp only
    rw [List.map_map]
    rfl
  · intro st id data now L E hf hE hitems
    rcases Db.updateStudySetDb_items_roundtrip st id data now L E hf hE hitems with
      ⟨Y, st2, h1, h2, h3⟩
    refine ⟨Y, st2, h1, h2, ?_⟩
    rw [h3, List.map_map]
    rfl
  · intro st id hwf hmem hls
    exact LocalDb.local_get_absent st id hwf hmem hls
  · intro st data id now hwf hnk
    exact ⟨mkStudySet data id now,
      LocalDb.getStudySet_after_create_local st data id now hwf hnk, rfl⟩
  · intro st id data now L E hwfm hwf hnk hE hitems
    exact LocalDb.local_update_items_roundtrip st id data now L E hwfm hwf hnk hE hitems

/-- A concrete study item without multiple-choice metadata. -/
def sampleItem : StudyItem :=
  { id := "i1", term := "a", definition := "b", options := none, correctAnswer := none }

/-- A concrete creation payload with one item. -/
def sampleInput : StudySetInput :=
  { title := "T", description := "", items := [sampleItem], sourceType := "manual",
    sourceName := none }

/-- The entity behind id `s1` in the seeded stores. -/
def seededE : StudySet :=
  { id := "s1", title := "T", description := "", createdAt := 0, updatedAt := 0,
    items := [sampleItem], sourceType := "manual", sourceName := none }

/-- The `study_sets` row behind the seeded `s1` set. -/
def seededRow : Db.StudySetRow :=
  { id := "s1", title := "T", description := "", created_at := 0,
    updated_at := 0, source_type := "manual", source_name := none }

/-- A healthy database holding exactly the `s1` study set. -/
def seededDbState : Db.DbState :=
  { fails := []
    studySets := [seededRow]
    studyItems := [Db.itemRow "s1" sampleItem]
    userProgress := [] }

/-- A fallback store holding the `s1` study set in localStorage only. -/
def seededLocalState : LocalDb.LocalState :=
  { memStudySets := fun _ => none
    memStudySetIds := ["s1"]
    memProgress := fun _ => none
    isClient := true
    lsStudySets := [("s1", seededE)]
    lsAllIds := some ["s1"]
    lsProgress := [] }

/-- A replacement item list for updates. -/
def sampleItem2 : StudyItem :=
  { id := "i2", term := "c", definition := "d", options := none, correctAnswer := none }

/-- A patch that replaces the item collection. -/
def samplePatch : StudySetPatch :=
  { title := none, description := none, updatedAt := none,
    items := some [sampleItem2, sampleItem], sourceType := none, sourceName := none }

/-- Witness for `getStudySet_insertion_order_or_absent` on concrete
stores. -/
theorem getStudySet_insertion_order_or_absent_witness :
    ((Db.getStudySetDb sampleDbState "s1").1 = none) ∧
    (∃ st1 Y, Db.createStudySetDb sampleDbState sampleInput "s1" 0 =
        .ok (mkStudySet sampleInput "s1" 0, st1) ∧
      (Db.getStudySetDb st1 "s1").1 = some Y ∧
      Y.items.map itemSig = sampleInput.items.map itemSig) ∧
    (∃ Y st2, Db.updateStudySetDb seededDbState "s1" samplePatch 9 = (some Y, st2) ∧
      (Db.getStudySetDb st2 "s1").1 = some Y ∧
      Y.items.map itemSig = [sampleItem2, sampleItem].map itemSig) ∧
    ((LocalDb.getStudySet sampleLocalState "s1").1 = none) ∧
    (∃ Y, (LocalDb.getStudySet
        ((LocalDb.createStudySet sampleLocalState sampleInput "s1" 0).2) "s1").1 = some Y ∧
      Y.items = sampleInput.items) ∧
    (∃ Y st2, LocalDb.updateStudySet seededLocalState "s1" samplePatch 9 = (some Y, st2) ∧
      (LocalDb.getStudySet st2 "s1").1 = some Y ∧ Y.items = [sampleItem2, sampleItem]) :=
  ⟨getStudySet_insertion_order_or_absent.1 sampleDbState "s1" rfl,
   getStudySet_insertion_order_or_absent.2.1 sampleDbState sampleInput "s1" 0 rfl rfl rfl,
   getStudySet_insertion_order_or_absent.2.2.1 seededDbState "s1" samplePatch 9
     [sampleItem2, sampleItem] seededE rfl (by decide) rfl,
   getStudySet_insertion_order_or_absent.2.2.2.1 sampleLocalState "s1" (by decide) rfl rfl,
   getStudySet_insertion_order_or_absent.2.2.2.2.1 sampleLocalState sampleInput "s1" 0
     (by decide) (by decide),
   getStudySet_insertion_order_or_absent.2.2.2.2.2 seededLocalState "s1" samplePatch 9
     [sampleItem2, sampleItem] seededE (fun _ _ h => nomatch h) (by decide) (by decide)
     (by decide) rfl⟩

/-- The seeded database whose next `query(...)` call throws. -/
def failingDbState : Db.DbState :=
  { fails := [true]
    studySets := [seededRow]
    studyItems := [Db.itemRow "s1" sampleItem]
    userProgress := [] }

/-- The seeded database whose fourth `query(...)` call throws: during an
item-replacing update, the two reads and the `UPDATE study_sets`
succeed and the `DELETE FROM study_items` throws. -/
def midFailureState : Db.DbState :=
  { fails := [false, false, false, true]
    studySets := [seededRow]
    studyItems := [Db.itemRow "s1" sampleItem]
    userProgress := [] }

/-- A patch renaming the set and replacing its item collection. -/
def midFailurePatch : StudySetPatch :=
  { title := some "T2", description := none, updatedAt := none,
    items := some [sampleItem2], sourceType := none, sourceName := none }

/-- Claim C5 counterexample. The claim says storage failures are
re-surfaced as failures and that `getStudySet`, `deleteStudySet` and
`saveUserProgress` never silently return a normal-looking result on a
storage error.  On a store holding the `s1` set whose next call throws,
the code instead returns the absent value, `false` (with the set still
present), and the unsaved progress record. -/
theorem db_storage_error_swallowed_cex :
    failingDbState.studySets ≠ [] ∧
    (Db.getStudySetDb failingDbState "s1").1 = none ∧
    (Db.deleteStudySetDb failingDbState "s1").1 = false ∧
    (Db.deleteStudySetDb failingDbState "s1").2.studySets = failingDbState.studySets ∧
    (Db.saveUserProgressDb failingDbState sampleP1 7).1 = mkUserProgress sampleP1 7 ∧
    (Db.saveUserProgressDb failingDbState sampleP1 7).2.userProgress =
      failingDbState.userProgress := by
  decide

/-- Claim C5 amended. When a storage call throws, the failure is logged
and swallowed, not re-surfaced: `getStudySetDb` and `getUserProgressDb`
return the absent value, `deleteStudySetDb` returns `false`,
`saveUserProgressDb` returns the constructed but unsaved progress
record, `updateStudySetDb` returns the absent value; only
`createStudySetDb` re-throws to its caller, and no operation retries.
A failure on an operation's first statement leaves the tables unchanged
(only the schedule advances), but `updateStudySetDb` issues several
statements and a failure after the first can leave a partially applied
update: on `midFailureState` the `UPDATE study_sets` lands, the item
replacement does not, and the caller still sees the absent value. -/
theorem db_storage_error_swallowed_spec (st : Db.DbState) (rest : List Bool)
    (id mode : String) (data : StudySetInput) (patch : StudySetPatch)
    (p : UserProgressInput) (now : Nat) (hf : st.fails = true :: rest) :
    Db.getStudySetDb st id = (none, { st with fails := rest }) ∧
    Db.getUserProgressDb st id mode = (none, { st with fails := rest }) ∧
    Db.deleteStudySetDb st id = (false, { st with fails := rest }) ∧
    Db.saveUserProgressDb st p now = (mkUserProgress p now, { st with fails := rest }) ∧
    Db.updateStudySetDb st id patch now = (none, { st with fails := rest }) ∧
    Db.createStudySetDb st data id now = .error { st with fails := rest } ∧
    ((Db.updateStudySetDb midFailureState "s1" midFailurePatch 9).1 = none ∧
     (Db.updateStudySetDb midFailureState "s1" midFailurePatch 9).2.studySets ≠
       midFailureState.studySets ∧
     (Db.updateStudySetDb midFailureState "s1" midFailurePatch 9).2.studyItems =
       midFailureState.studyItems) :=
  ⟨Db.getStudySetDb_headTrue st id hf,
   Db.getUserProgressDb_headTrue st id mode hf,
   Db.deleteStudySetDb_headTrue st id hf,
   Db.saveUserProgressDb_headTrue st p now hf,
   Db.updateStudySetDb_headTrue st id patch now hf,
   Db.createStudySetDb_headTrue st data id now hf,
   by decide⟩

/-- Witness for `db_storage_error_swallowed_spec` on the failing store. -/
theorem db_storage_error_swallowed_spec_witness :
    failingDbState.fails = true :: [] ∧
    (Db.getStudySetDb failingDbState "s1" =
      (none, { failingDbState with fails := [] }) ∧
    Db.getUserProgressDb failingDbState "s1" "learn" =
      (none, { failingDbState with fails := [] }) ∧
    Db.deleteStudySetDb failingDbState "s1" =
      (false, { failingDbState with fails := [] }) ∧
    Db.saveUserProgressDb failingDbState sampleP1 7 =
      (mkUserProgress sampleP1 7, { failingDbState with fails := [] }) ∧
    Db.updateStudySetDb failingDbState "s1" samplePatch 7 =
      (none, { failingDbState with fails := [] }) ∧
    Db.createStudySetDb failingDbState sampleInput "s1" 7 =
      .error { failingDbState with fails := [] } ∧
    ((Db.updateStudySetDb midFailureState "s1" midFailurePatch 9).1 = none ∧
     (Db.updateStudySetDb midFailureState "s1" midFailurePatch 9).2.studySets ≠
       midFailureState.studySets ∧
     (Db.updateStudySetDb midFailureState "s1" midFailurePatch 9).2.studyItems =
       midFailureState.studyItems)) :=
  ⟨rfl, db_storage_error_swallowed_spec failingDbState [] "s1" "learn" sampleInput
    samplePatch sampleP1 7 rfl⟩

/-- A creation input is valid when its required text fields are
non-empty and it has at least one item (types.ts zod schema). -/
def ValidStudySetInput (d : StudySetInput) : Prop :=
  d.title ≠ "" ∧ d.items ≠ [] ∧ ∀ i ∈ d.items, i.term ≠ "" ∧ i.definition ≠ ""

instance (d : StudySetInput) : Decidable (ValidStudySetInput d) := by
  unfold ValidStudySetInput
  infer_instance

/-- A valid creation input whose `sourceName` is the empty string. -/
def cexInput : StudySetInput :=
  { title := "T", description := "", items := [sampleItem], sourceType := "manual",
    sourceName := some "" }

/-- Claim C6 counterexample. For the valid input with `sourceName = ""`,
the database round trip does not preserve `sourceName`: the insert
coerces `"" || null` to SQL `NULL`, so `getStudySet` returns an absent
`sourceName` instead of the empty string. -/
theorem roundtrip_sourceName_cex :
    ValidStudySetInput cexInput ∧
    cexInput.sourceName = some "" ∧
    (∃ st1, Db.createStudySetDb sampleDbState cexInput "sx" 0 =
        .ok (mkStudySet cexInput "sx" 0, st1) ∧
      ((Db.getStudySetDb st1 "sx").1).map StudySet.sourceName = some none ∧
      ((Db.getStudySetDb st1 "sx").1).map StudySet.sourceName ≠
        some (mkStudySet cexInput "sx" 0).sourceName) := by
  refine ⟨by decide, rfl, ?_⟩
  refine ⟨_, Db.createStudySetDb_nil sampleDbState cexInput "sx" 0 rfl, by decide, by decide⟩

/-- Claim C6 amended. `createStudySet` followed by `getStudySet` on the
returned id yields the entity equal to the input in title, description,
items (same order), sourceType and sourceName, differing only in the
assigned id and timestamps — exactly as created in the fallback
backend, and in the database backend provided the optional string
fields (`sourceName`, items' `correctAnswer`) are not empty strings,
which the insert's `|| null` coerces to absent. -/
theorem roundtrip_create_get :
    (∀ (st : Db.DbState) (data : StudySetInput) (id : String) (now : Nat),
      st.fails = [] →
      st.studySets.filter (fun r => r.id == id) = [] →
      st.studyItems.filter (fun r => r.study_set_id == id) = [] →
      ValidStudySetInput data →
      data.sourceName ≠ some "" →
      (∀ i ∈ data.items, i.correctAnswer ≠ some "") →
      ∃ st1, Db.createStudySetDb st data id now = .ok (mkStudySet data id now, st1) ∧
        (Db.getStudySetDb st1 id).1 = some (mkStudySet data id now)) ∧
    (∀ (st : LocalDb.LocalState) (data : StudySetInput) (id : String) (now : Nat),
      WfLS st.lsStudySets → NodupKeys st.lsStudySets →
      (LocalDb.getStudySet ((LocalDb.createStudySet st data id now).2) id).1 =
        some (mkStudySet data id now)) := by
  constructor
  · intro st data id now hf hfS hfI hvalid hsn hca
    rcases Db.getStudySetDb_after_create st data id now hf hfS hfI with ⟨st1, hcr, hget⟩
    refine ⟨st1, hcr, ?_⟩
    rw [hget]
    have hsn2 : Db.jsStrOrNull data.sourceName = data.sourceName := by
      cases hx : data.sourceName with
      | none => rfl
      | some s =>
        have hs : s ≠ "" := by
          intro h0
          exact hsn (by rw [hx, h0])
        simp [Db.jsStrOrNull, hs]
    have hit : data.items.map (fun i => Db.itemOfRow (Db.itemRow id i)) = data.items := by
      apply map_eq_self_of_forall
      intro i hi
      have hca2 : Db.jsStrOrNull i.correctAnswer = i.correctAnswer := by
        cases hx : i.correctAnswer with
        | none => rfl
        | some s =>
          have hs : s ≠ "" := by
            intro h0
            exact hca i hi (by rw [hx, h0])
          simp [Db.jsStrOrNull, hs]
      cases i
      simp only [Db.itemOfRow, Db.itemRow] at hca2 ⊢
      simp [hca2]
    simp [mkStudySet, Db.jsOrEmpty_eq, hsn2, hit]
  · intro st data id now hwf hnk
    exact LocalDb.getStudySet_after_create_local st data id now hwf hnk

/-- Witness for `roundtrip_create_get` on the empty stores. -/
theorem roundtrip_create_get_witness :
    (sampleDbState.fails = [] ∧ ValidStudySetInput sampleInput ∧
      sampleInput.sourceName ≠ some "" ∧ WfLS sampleLocalState.lsStudySets ∧
      NodupKeys sampleLocalState.lsStudySets) ∧
    (∃ st1, Db.createStudySetDb sampleDbState sampleInput "s1" 0 =
        .ok (mkStudySet sampleInput "s1" 0, st1) ∧
      (Db.getStudySetDb st1 "s1").1 = some (mkStudySet sampleInput "s1" 0)) ∧
    (LocalDb.getStudySet
        ((LocalDb.createStudySet sampleLocalState sampleInput "s1" 0).2) "s1").1 =
      some (mkStudySet sampleInput "s1" 0) :=
  ⟨⟨rfl, by decide, by decide, by decide, by decide⟩,
   roundtrip_create_get.1 sampleDbState sampleInput "s1" 0 rfl rfl rfl (by decide)
     (by decide) (by decide),
   roundtrip_create_get.2 sampleLocalState sampleInput "s1" 0 (by decide) (by decide)⟩

/-- Claim C7. `deleteStudySet` followed by `getStudySet` on the same id
yields an absent value, and the delete removes all the set's items —
in both backends (cascade in the database, containment plus key removal
in the fallback). -/
theorem delete_then_get_absent :
    (∀ (st : Db.DbState) (id : String), st.fails = [] →
      (Db.getStudySetDb ((Db.deleteStudySetDb st id).2) id).1 = none ∧
      ∀ r ∈ ((Db.deleteStudySetDb st id).2).studyItems, r.study_set_id ≠ id) ∧
    (∀ (st : LocalDb.LocalState) (id : String),
      WfLS st.lsStudySets → NodupKeys st.lsStudySets →
      (LocalDb.getStudySet ((LocalDb.deleteStudySet st id).2) id).1 = none) := by
  constructor
  · intro st id hf
    rw [Db.deleteStudySetDb_nil st id hf]
    dsimp only
    constructor
    · apply Db.getStudySetDb_fst_none_of_no_row
      dsimp only
      rw [List.filter_filter]
      have hff : (fun a : Db.StudySetRow => (a.id == id) && !(a.id == id)) =
          fun _ => false := by
        funext a
        cases h : (a.id == id) <;> simp [h]
      rw [hff]
      simp
    · intro r hr
      have h2 := (List.mem_filter.1 hr).2
      simpa using h2
  · intro st id hwf hnk
    cases hx : (LocalDb.initializeFromLocalStorage st).memStudySets id with
    | none =>
      rw [LocalDb.deleteStudySet_absent st id hx]
      rw [LocalDb.getStudySet_fst_after_init, LocalDb.getStudySet_fst]
      rw [LocalDb.initialize_memStudySets_apply] at hx
      by_cases hc : st.isClient
      · rw [if_pos hc] at hx
        rw [if_pos hc]
        obtain ⟨hA, hm⟩ := or_eq_none_parts _ _ hx
        have hkeys : id ∉ (LocalDb.byIdKey st.lsStudySets).map Prod.fst :=
          (alookup_reverse_eq_none_iff _ _).1 hA
        have hls : alookup st.lsStudySets id = none := by
          rw [alookup_eq_none_iff]
          intro hmem
          apply hkeys
          rcases List.mem_map.1 hmem with ⟨p, hpmem, hp1⟩
          rw [LocalDb.byIdKey, List.map_map]
          refine List.mem_map.2 ⟨p, hpmem, ?_⟩
          show p.2.id = id
          rw [hwf p hpmem, hp1]
        rw [hA, hm, hls]
        rfl
      · rw [if_neg hc] at hx
        rw [if_neg hc]
        exact hx
    | some ss =>
      rw [LocalDb.deleteStudySet_present st id ss hx]
      rw [LocalDb.getStudySet_fst]
      dsimp only
      by_cases hc : st.isClient
      · rw [if_pos hc, if_pos hc]
        have hwf2 := wfLS_aerase st.lsStudySets id hwf
        rw [LocalDb.byIdKey_eq_self _ hwf2]
        have h1 : alookup (aerase st.lsStudySets id).reverse id = none := by
          rw [alookup_reverse_eq_none_iff]
          exact aerase_key_not_mem _ _ hnk
        have h2 : alookup (aerase st.lsStudySets id) id = none := by
          rw [alookup_eq_none_iff]
          exact aerase_key_not_mem _ _ hnk
        rw [h1, h2]
        simp [mapErase]
      · rw [if_neg hc]
        simp [mapErase]

/-- Witness for `delete_then_get_absent` on the seeded stores. -/
theorem delete_then_get_absent_witness :
    (seededDbState.fails = [] ∧ WfLS seededLocalState.lsStudySets ∧
      NodupKeys seededLocalState.lsStudySets) ∧
    ((Db.getStudySetDb ((Db.deleteStudySetDb seededDbState "s1").2) "s1").1 = none ∧
      ∀ r ∈ ((Db.deleteStudySetDb seededDbState "s1").2).studyItems,
        r.study_set_id ≠ "s1") ∧
    (LocalDb.getStudySet ((LocalDb.deleteStudySet seededLocalState "s1").2) "s1").1 =
      none :=
  ⟨⟨rfl, by decide, by decide⟩,
   delete_then_get_absent.1 seededDbState "s1" rfl,
   delete_then_get_absent.2 seededLocalState "s1" (by decide) (by decide)⟩

/-- Claim C8. `updateStudySet` on a non-existent id returns an absent
value, without throwing, in both backends. -/
theorem update_missing_returns_absent :
    (∀ (st : Db.DbState) (id : String) (data : StudySetPatch) (now : Nat),
      st.studySets.filter (fun r => r.id == id) = [] →
      (Db.updateStudySetDb st id data now).1 = none ∧
      (Db.updateStudySetDb st id data now).2.studySets = st.studySets ∧
      (Db.updateStudySetDb st id data now).2.studyItems = st.studyItems ∧
      (Db.updateStudySetDb st id data now).2.userProgress = st.userProgress) ∧
    (∀ (st : LocalDb.LocalState) (id : String) (data : StudySetPatch) (now : Nat),
      WfLS st.lsStudySets → st.memStudySets id = none →
      alookup st.lsStudySets id = none →
      (LocalDb.updateStudySet st id data now).1 = none) := by
  constructor
  · intro st id data now h
    have habs := Db.updateStudySetDb_absent st id data now h
    obtain ⟨fl, hfl⟩ := Db.getStudySetDb_snd_tables st id
    rw [habs, hfl]
    exact ⟨rfl, rfl, rfl, rfl⟩
  · intro st id data now hwf hmem hls
    apply LocalDb.updateStudySet_fst_none
    rw [LocalDb.getStudySet_fst_after_init]
    exact LocalDb.local_get_absent st id hwf hmem hls

/-- Witness for `update_missing_returns_absent` on the empty stores. -/
theorem update_missing_returns_absent_witness :
    (sampleDbState.studySets.filter (fun r => r.id == "s1") = [] ∧
      WfLS sampleLocalState.lsStudySets ∧
      sampleLocalState.memStudySets "s1" = none ∧
      alookup sampleLocalState.lsStudySets "s1" = none) ∧
    ((Db.updateStudySetDb sampleDbState "s1" samplePatch 3).1 = none ∧
      (Db.updateStudySetDb sampleDbState "s1" samplePatch 3).2.studySets =
        sampleDbState.studySets ∧
      (Db.updateStudySetDb sampleDbState "s1" samplePatch 3).2.studyItems =
        sampleDbState.studyItems ∧
      (Db.updateStudySetDb sampleDbState "s1" samplePatch 3).2.userProgress =
        sampleDbState.userProgress) ∧
    (LocalDb.updateStudySet sampleLocalState "s1" samplePatch 3).1 = none :=
  ⟨⟨rfl, by decide, rfl, rfl⟩,
   update_missing_returns_absent.1 sampleDbState "s1" samplePatch 3 rfl,
   update_missing_returns_absent.2 sampleLocalState "s1" samplePatch 3 (by decide) rfl rfl⟩

/-- Claim C10. Frame property of the fallback backend: deleting one study
set leaves every other study set's `getStudySet` result and every
`getUserProgress` result unchanged.  (The localStorage layout is
well-formed: each stored set sits under its own id.) -/
theorem delete_frame_property (st : LocalDb.LocalState) (id id' sid mode : String)
    (hne : id' ≠ id) (hwf : WfLS st.lsStudySets) :
    (LocalDb.getStudySet ((LocalDb.deleteStudySet st id).2) id').1 =
      (LocalDb.getStudySet st id').1 ∧
    (LocalDb.getUserProgress ((LocalDb.deleteStudySet st id).2) sid mode).1 =
      (LocalDb.getUserProgress st sid mode).1 := by
  cases hx : (LocalDb.initializeFromLocalStorage st).memStudySets id with
  | none =>
    rw [LocalDb.deleteStudySet_absent st id hx]
    exact ⟨LocalDb.getStudySet_fst_after_init st id',
      LocalDb.getUserProgress_fst_after_init st sid mode⟩
  | some ss =>
    rw [LocalDb.deleteStudySet_present st id ss hx]
    have hmE : mapErase (LocalDb.initializeFromLocalStorage st).memStudySets id id' =
        (LocalDb.initializeFromLocalStorage st).memStudySets id' := by
      simp [mapErase, hne]
    constructor
    · rw [LocalDb.getStudySet_fst, LocalDb.getStudySet_fst]
      dsimp only
      by_cases hc : st.isClient
      · rw [if_pos hc, if_pos hc, if_pos hc]
        have hwf2 := wfLS_aerase st.lsStudySets id hwf
        rw [LocalDb.byIdKey_eq_self _ hwf2, LocalDb.byIdKey_eq_self _ hwf]
        rw [alookup_reverse_aerase_ne _ _ _ hne, alookup_aerase_ne _ _ _ hne]
        rw [hmE, LocalDb.initialize_memStudySets_apply, if_pos hc,
          LocalDb.byIdKey_eq_self _ hwf, or_or_self]
      · rw [if_neg hc, if_neg hc]
        rw [hmE, LocalDb.initialize_memStudySets_apply, if_neg hc]
    · rw [LocalDb.getUserProgress_fst, LocalDb.getUserProgress_fst]
      dsimp only
      by_cases hc : st.isClient
      · rw [if_pos hc, if_pos hc]
        rw [LocalDb.initialize_memProgress_apply, if_pos hc, or_or_self]
      · rw [if_neg hc, if_neg hc]
        rw [LocalDb.initialize_memProgress_apply, if_neg hc]

/-- Witness for `delete_frame_property`: deleting `s2` leaves `s1` and
the progress record visible. -/
theorem delete_frame_property_witness :
    (("s1" : String) ≠ "s2" ∧ WfLS seededLocalState.lsStudySets) ∧
    ((LocalDb.getStudySet ((LocalDb.deleteStudySet seededLocalState "s2").2) "s1").1 =
      (LocalDb.getStudySet seededLocalState "s1").1 ∧
    (LocalDb.getUserProgress
        ((LocalDb.deleteStudySet seededLocalState "s2").2) "s1" "learn").1 =
      (LocalDb.getUserProgress seededLocalState "s1" "learn").1) :=
  ⟨⟨by decide, by decide⟩,
   delete_frame_property seededLocalState "s2" "s1" "s1" "learn" (by decide) (by decide)⟩

end Spec2Proof
